import Mathlib

/-!
Verification development for the cosmos-tax-indexer persistence engine.

The Go source is shallowly embedded: database tables are lists of row
structures, gorm's fetch-or-create (`FirstOrCreate`) is an explicit
lookup-then-append on the relevant table, and each transactional unit
(`db.Transaction`) is a function that either commits the new state or
rolls back to the caller's state on error.  `config.Log.Fatal` (which
terminates the process in the source) is a distinguished third outcome.
-/

namespace CosmosTax

/-! ### Definitions: shallow embedding of the source -/

/-! ## Generic list machinery -/

/-- `Extends l l'` holds when `l'` is `l` with rows appended at the end.
Within one write transaction rows are only ever appended, so every
intermediate table extends the earlier ones. -/
def Extends {α : Type} (l l' : List α) : Prop := ∃ t, l ++ t = l'

/-- Replace the first element satisfying `p` by `a` (models an SQL
`UPDATE ... WHERE <key>` hitting the unique row found before). -/
def replaceFirst {α : Type} (l : List α) (p : α → Bool) (a : α) : List α :=
  match l with
  | [] => []
  | x :: xs => if p x then a :: xs else x :: replaceFirst xs p a

/-! ## Generic fetch-or-create

gorm's `Where(<natural key>).FirstOrCreate(&row)` translates, for each
table, to: find the first row matching the key; if present return its
generated identifier, otherwise append a freshly numbered row. -/

class HasRowId (ρ : Type) where
  rowId : ρ → Nat

/-- `mk` builds the row to insert from the freshly generated identifier. -/
def firstOrCreate {ρ : Type} [HasRowId ρ] (table : List ρ) (p : ρ → Bool)
    (mk : Nat → ρ) : List ρ × Nat :=
  match table.find? p with
  | some r => (table, HasRowId.rowId r)
  | none =>
      let newRow := mk (table.length + 1)
      (table ++ [newRow], HasRowId.rowId newRow)

/-! ## Row types for the main indexing schema (src/db/db.go) -/

structure AddressRow where
  id : Nat
  address : String
deriving DecidableEq, Repr

structure BlockRow where
  id : Nat
  height : Int
  timeStamp : Int
  indexed : Bool
  blockchainID : Nat
deriving DecidableEq, Repr

structure TxRow where
  id : Nat
  hash : String
  code : Nat
  blockID : Nat
  signerAddressID : Option Nat
deriving DecidableEq, Repr

structure FeeRow where
  id : Nat
  txID : Nat
  amount : Int
  denominationID : Nat
  payerAddressID : Nat
deriving DecidableEq, Repr

structure MessageTypeRow where
  id : Nat
  messageType : String
deriving DecidableEq, Repr

structure MessageRow where
  id : Nat
  txID : Nat
  messageTypeID : Nat
  messageIndex : Int
deriving DecidableEq, Repr

structure TaxableTransactionRow where
  id : Nat
  messageID : Nat
  amountSent : Int
  amountReceived : Int
  denominationSentID : Nat
  denominationReceivedID : Nat
  senderAddressID : Option Nat
  receiverAddressID : Option Nat
deriving DecidableEq, Repr

instance : HasRowId AddressRow := ⟨AddressRow.id⟩

instance : HasRowId BlockRow := ⟨BlockRow.id⟩

instance : HasRowId TxRow := ⟨TxRow.id⟩

instance : HasRowId FeeRow := ⟨FeeRow.id⟩

instance : HasRowId MessageTypeRow := ⟨MessageTypeRow.id⟩

instance : HasRowId MessageRow := ⟨MessageRow.id⟩

instance : HasRowId TaxableTransactionRow := ⟨TaxableTransactionRow.id⟩

/-- The relational store as seen by `IndexNewBlock`.  `failedBlocks` rows
are keyed by (height, blockchain id); the other tables carry generated
identifiers. -/
structure DBState where
  failedBlocks : List (Int × Nat)
  blocks : List BlockRow
  txs : List TxRow
  addresses : List AddressRow
  fees : List FeeRow
  messageTypes : List MessageTypeRow
  messages : List MessageRow
  taxableTransactions : List TaxableTransactionRow
deriving DecidableEq, Repr

def emptyState : DBState :=
  { failedBlocks := [], blocks := [], txs := [], addresses := [], fees := [],
    messageTypes := [], messages := [], taxableTransactions := [] }

/-! ## Decoded input shapes (the TxDBWrapper bundle handed to IndexNewBlock) -/

structure Denom where
  id : Nat
  base : String
  symbol : String
deriving DecidableEq, Repr

structure AddressInput where
  address : String
deriving DecidableEq, Repr

structure FeeInput where
  amount : Int
  denomination : Denom
  payerAddress : AddressInput
deriving DecidableEq, Repr

structure TxInput where
  hash : String
  code : Nat
  fees : List FeeInput
deriving DecidableEq, Repr

structure MessageTypeInput where
  messageType : String
deriving DecidableEq, Repr

structure MessageInput where
  messageType : MessageTypeInput
  messageIndex : Int
deriving DecidableEq, Repr

structure TaxableTxInput where
  amountSent : Int
  amountReceived : Int
  denominationSentID : Nat
  denominationReceivedID : Nat
deriving DecidableEq, Repr

structure TaxableTxDBWrapper where
  taxableTx : TaxableTxInput
  senderAddress : AddressInput
  receiverAddress : AddressInput
deriving DecidableEq, Repr

structure MessageDBWrapper where
  message : MessageInput
  taxableTxs : List TaxableTxDBWrapper
deriving DecidableEq, Repr

structure TxDBWrapper where
  tx : TxInput
  signerAddress : AddressInput
  messages : List MessageDBWrapper
deriving DecidableEq, Repr

/-- Outcome of running the body of a `db.Transaction`: commit with the new
state, return an error (gorm rolls the transaction back), or
`config.Log.Fatal` (the source terminates the process; nothing commits). -/
inductive Res (α : Type) where
  | ok (a : α)
  | err (msg : String)
  | fatal (msg : String)
deriving DecidableEq, Repr

/-- Result reported to the caller of a transactional write. -/
inductive DBResult where
  | ok
  | err (msg : String)
  | fatal (msg : String)
deriving DecidableEq, Repr

def DBResult.isError : DBResult → Bool
  | .err _ => true
  | _ => false

def Res.isOk {α : Type} : Res α → Bool
  | .ok _ => true
  | _ => false

def Res.isFatal {α : Type} : Res α → Bool
  | .fatal _ => true
  | _ => false

/-! ## The per-table fetch-or-create operations used by IndexNewBlock -/

def firstOrCreateAddress (s : DBState) (addr : String) : DBState × Nat :=
  let r := firstOrCreate s.addresses (fun x => x.address == addr)
    (fun n => { id := n, address := addr })
  ({ s with addresses := r.1 }, r.2)

def firstOrCreateTx (s : DBState) (hash : String) (code : Nat) (blockID : Nat)
    (signer : Option Nat) : DBState × Nat :=
  let r := firstOrCreate s.txs (fun x => x.hash == hash)
    (fun n => { id := n, hash := hash, code := code, blockID := blockID,
                signerAddressID := signer })
  ({ s with txs := r.1 }, r.2)

def firstOrCreateFee (s : DBState) (txID : Nat) (denomID : Nat) (amount : Int)
    (payerID : Nat) : DBState × Nat :=
  let r := firstOrCreate s.fees (fun x => x.txID == txID && x.denominationID == denomID)
    (fun n => { id := n, txID := txID, amount := amount, denominationID := denomID,
                payerAddressID := payerID })
  ({ s with fees := r.1 }, r.2)

def firstOrCreateMessageType (s : DBState) (mt : String) : DBState × Nat :=
  let r := firstOrCreate s.messageTypes (fun x => x.messageType == mt)
    (fun n => { id := n, messageType := mt })
  ({ s with messageTypes := r.1 }, r.2)

def firstOrCreateMessage (s : DBState) (txID : Nat) (mtID : Nat) (idx : Int) :
    DBState × Nat :=
  let r := firstOrCreate s.messages
    (fun x => x.txID == txID && x.messageTypeID == mtID && x.messageIndex == idx)
    (fun n => { id := n, txID := txID, messageTypeID := mtID, messageIndex := idx })
  ({ s with messages := r.1 }, r.2)

def firstOrCreateTaxableTx (s : DBState) (msgID : Nat) (tt : TaxableTxInput)
    (senderID receiverID : Option Nat) : DBState × Nat :=
  let r := firstOrCreate s.taxableTransactions
    (fun x => x.messageID == msgID && x.amountSent == tt.amountSent &&
              x.amountReceived == tt.amountReceived)
    (fun n => { id := n, messageID := msgID, amountSent := tt.amountSent,
                amountReceived := tt.amountReceived,
                denominationSentID := tt.denominationSentID,
                denominationReceivedID := tt.denominationReceivedID,
                senderAddressID := senderID, receiverAddressID := receiverID })
  ({ s with taxableTransactions := r.1 }, r.2)

/-- `DELETE FROM failed_blocks WHERE height = ? AND blockchain_id = ?`. -/
def deleteFailedBlock (s : DBState) (height : Int) (chainID : Nat) : DBState :=
  { s with failedBlocks :=
      s.failedBlocks.filter (fun p => !(p.1 == height && p.2 == chainID)) }

/-- The Block upsert: `Where(height, blockchain_id).Assign(indexed, time).FirstOrCreate`.
When found, the assigned columns are updated on the existing row. -/
def upsertBlock (s : DBState) (height : Int) (time : Int) (chainID : Nat) :
    DBState × Nat :=
  match s.blocks.find? (fun x => x.height == height && x.blockchainID == chainID) with
  | some r =>
      let r' := { r with indexed := true, timeStamp := time }
      ({ s with blocks :=
                  replaceFirst s.blocks
                    (fun x => x.height == height && x.blockchainID == chainID) r' },
       r.id)
  | none =>
      let newRow : BlockRow :=
        { id := s.blocks.length + 1, height := height, timeStamp := time,
          indexed := true, blockchainID := chainID }
      ({ s with blocks := s.blocks ++ [newRow] }, newRow.id)

/-! ## IndexNewBlock (src/db/db.go lines 127-273) -/

def processFee (txID : Nat) (s : DBState) (fee : FeeInput) : Res DBState :=
  if fee.payerAddress.address == "" then
    .err "fee cannot have empty payer address"
  else
    let sp := firstOrCreateAddress s fee.payerAddress.address
    if fee.denomination.base == "" || fee.denomination.symbol == "" then
      .err "denom not cached"
    else
      .ok (firstOrCreateFee sp.1 txID fee.denomination.id fee.amount sp.2).1

def processFees (txID : Nat) : DBState → List FeeInput → Res DBState
  | s, [] => .ok s
  | s, f :: rest =>
      match processFee txID s f with
      | .ok s' => processFees txID s' rest
      | .err m => .err m
      | .fatal m => .fatal m

def processTaxableTx (msgID : Nat) (s : DBState) (tt : TaxableTxDBWrapper) : DBState :=
  let ssnd : DBState × Option Nat :=
    if tt.senderAddress.address == "" then (s, none)
    else
      let r := firstOrCreateAddress s tt.senderAddress.address
      (r.1, some r.2)
  let srcv : DBState × Option Nat :=
    if tt.receiverAddress.address == "" then (ssnd.1, none)
    else
      let r := firstOrCreateAddress ssnd.1 tt.receiverAddress.address
      (r.1, some r.2)
  (firstOrCreateTaxableTx srcv.1 msgID tt.taxableTx ssnd.2 srcv.2).1

def processMessage (txID : Nat) (s : DBState) (m : MessageDBWrapper) : Res DBState :=
  if m.message.messageType.messageType == "" then
    .fatal "Message type not getting to DB"
  else
    let smt := firstOrCreateMessageType s m.message.messageType.messageType
    let smsg := firstOrCreateMessage smt.1 txID smt.2 m.message.messageIndex
    .ok (m.taxableTxs.foldl (processTaxableTx smsg.2) smsg.1)

def processMessages (txID : Nat) : DBState → List MessageDBWrapper → Res DBState
  | s, [] => .ok s
  | s, m :: rest =>
      match processMessage txID s m with
      | .ok s' => processMessages txID s' rest
      | .err msg => .err msg
      | .fatal msg => .fatal msg

/-- Continuation of `processTx` after the fee loop: on success the message
loop runs, otherwise the failure propagates. -/
def processTxAfterFees (txID : Nat) (msgs : List MessageDBWrapper) :
    Res DBState → Res DBState
  | .ok s' => processMessages txID s' msgs
  | .err m => .err m
  | .fatal m => .fatal m

def processTx (blockID : Nat) (s : DBState) (t : TxDBWrapper) : Res DBState :=
  let ssig : DBState × Option Nat :=
    if t.signerAddress.address == "" then (s, none)
    else
      let r := firstOrCreateAddress s t.signerAddress.address
      (r.1, some r.2)
  let stx := firstOrCreateTx ssig.1 t.tx.hash t.tx.code blockID ssig.2
  processTxAfterFees stx.2 t.messages (processFees stx.2 stx.1 t.tx.fees)

def processTxs (blockID : Nat) : DBState → List TxDBWrapper → Res DBState
  | s, [] => .ok s
  | s, t :: rest =>
      match processTx blockID s t with
      | .ok s' => processTxs blockID s' rest
      | .err m => .err m
      | .fatal m => .fatal m

/-- Body of the `db.Transaction` closure in `IndexNewBlock`. -/
def runIndexNewBlock (s0 : DBState) (height : Int) (time : Int)
    (txs : List TxDBWrapper) (chainID : Nat) : Res DBState :=
  let s1 := deleteFailedBlock s0 height chainID
  let sb := upsertBlock s1 height time chainID
  processTxs sb.2 sb.1 txs

/-- `IndexNewBlock` (spec: `WriteBlock`): one all-or-nothing transaction.
On error gorm rolls back: the caller's state is unchanged.  On
`config.Log.Fatal` the process exits before any commit: nothing persists
either. -/
def IndexNewBlock (s0 : DBState) (height : Int) (time : Int)
    (txs : List TxDBWrapper) (chainID : Nat) : DBState × DBResult :=
  match runIndexNewBlock s0 height time txs chainID with
  | .ok s => (s, .ok)
  | .err m => (s0, .err m)
  | .fatal m => (s0, .fatal m)

/-! ## State extension and stability of the write steps -/

/-- Inside the transaction body every step after the failed-block delete
only appends rows (the Block assign is handled separately); `Ext s t`
says `t` is `s` with rows appended and the failed-block worklist
untouched. -/
structure Ext (s t : DBState) : Prop where
  failed : s.failedBlocks = t.failedBlocks
  blocks : Extends s.blocks t.blocks
  txs : Extends s.txs t.txs
  addresses : Extends s.addresses t.addresses
  fees : Extends s.fees t.fees
  messageTypes : Extends s.messageTypes t.messageTypes
  messages : Extends s.messages t.messages
  taxableTransactions : Extends s.taxableTransactions t.taxableTransactions

/-- True when a pending-retry row for (height, chain) is present. -/
def hasFailedBlock (s : DBState) (height : Int) (cid : Nat) : Bool :=
  s.failedBlocks.any (fun p => p.1 == height && p.2 == cid)

/-! ## Error-path lemmas (empty fee payer, empty message type) -/

def txHasEmptyPayerFee (t : TxDBWrapper) : Bool :=
  t.tx.fees.any (fun f => f.payerAddress.address == "")

def txNoEmptyMsgType (t : TxDBWrapper) : Bool :=
  t.messages.all (fun m => !(m.message.messageType.messageType == ""))

/-! ## Gap detection (src/db/db.go, GetFirstMissingBlockInRange /
GetHighestIndexedBlock) -/

def maxHeight? : List Int → Option Int
  | [] => none
  | h :: t =>
      match maxHeight? t with
      | none => some h
      | some m => some (max h m)

def indexedHeights (blocks : List BlockRow) (cid : Nat) : List Int :=
  (blocks.filter (fun b => b.blockchainID == cid && b.indexed)).map (fun b => b.height)

/-- `GetHighestIndexedBlock`: `order by height desc` then `First`; with no
matching row gorm leaves the zero-value `Block`, whose height is 0. -/
def GetHighestIndexedBlock (blocks : List BlockRow) (cid : Nat) : Int :=
  (maxHeight? (indexedHeights blocks cid)).getD 0

def heightRangeAux (lo : Int) : Nat → List Int
  | 0 => []
  | n+1 => lo :: heightRangeAux (lo+1) n

/-- `generate_series(lo, hi)` inclusive, ascending; empty when `lo > hi`. -/
def heightRange (lo hi : Int) : List Int :=
  if lo > hi then [] else heightRangeAux lo (hi - lo + 1).toNat

def isIndexedAt (blocks : List BlockRow) (cid : Nat) (h : Int) : Bool :=
  blocks.any (fun b => b.height == h && b.blockchainID == cid && b.indexed)

/-- Lines 73-78: the nominal range end is overwritten with `currMax+1`
when the highest indexed height is strictly above the range start. -/
def effectiveEnd (blocks : List BlockRow) (cid : Nat) (start endH : Int) : Int :=
  if GetHighestIndexedBlock blocks cid > start then
    GetHighestIndexedBlock blocks cid + 1
  else endH

/-- The raw SQL: ascending series minus indexed heights, `LIMIT 1`; the
"no rows in result set" branch falls back to `start`. -/
def GetFirstMissingBlockInRange (blocks : List BlockRow) (start endH : Int)
    (cid : Nat) : Int :=
  match ((heightRange start (effectiveEnd blocks cid start endH)).filter
      (fun h => !(isIndexedAt blocks cid h))).head? with
  | some h => h
  | none => start

/-! ## Osmosis reward indexing (src/db/osmosis.go) -/

structure ChainRow where
  id : Nat
  chainID : String
  name : String
deriving DecidableEq, Repr

structure OsmoBlockRow where
  id : Nat
  height : Int
  chainRowID : Nat
deriving DecidableEq, Repr

structure TaxableEventRow where
  id : Nat
  eventHash : String
  amount : Int
  blockRowID : Nat
  eventAddressID : Option Nat
  denomBase : String
  denomSymbol : String
deriving DecidableEq, Repr

instance : HasRowId ChainRow := ⟨ChainRow.id⟩

instance : HasRowId OsmoBlockRow := ⟨OsmoBlockRow.id⟩

/-- A flattened reward candidate (one `TaxableEvent` value handed to
`createTaxableEvents`, after the denom lookup phase). -/
structure OsmoTaxableEvent where
  eventHash : String
  amount : Int
  denomBase : String
  denomSymbol : String
  blockHeight : Int
  chainID : String
  chainName : String
  eventAddress : String
deriving DecidableEq, Repr

/-- The store as seen by the reward pipeline. -/
structure OsmoState where
  chains : List ChainRow
  osmoBlocks : List OsmoBlockRow
  addresses : List AddressRow
  taxableEvents : List TaxableEventRow
deriving DecidableEq, Repr

def emptyOsmoState : OsmoState :=
  { chains := [], osmoBlocks := [], addresses := [], taxableEvents := [] }

/-- `eventExists`: count of rows with the candidate's `event_hash`. -/
def eventExists (s : OsmoState) (e : OsmoTaxableEvent) : Bool :=
  s.taxableEvents.any (fun r => r.eventHash == e.eventHash)

def firstOrCreateChain (s : OsmoState) (chainID name : String) : OsmoState × Nat :=
  let r := firstOrCreate s.chains (fun x => x.chainID == chainID && x.name == name)
    (fun n => { id := n, chainID := chainID, name := name })
  ({ s with chains := r.1 }, r.2)

def firstOrCreateOsmoBlock (s : OsmoState) (height : Int) (chainRowID : Nat) :
    OsmoState × Nat :=
  let r := firstOrCreate s.osmoBlocks
    (fun x => x.height == height && x.chainRowID == chainRowID)
    (fun n => { id := n, height := height, chainRowID := chainRowID })
  ({ s with osmoBlocks := r.1 }, r.2)

def firstOrCreateOsmoAddress (s : OsmoState) (addr : String) : OsmoState × Nat :=
  let r := firstOrCreate s.addresses (fun x => x.address == addr)
    (fun n => { id := n, address := addr })
  ({ s with addresses := r.1 }, r.2)

/-- `Create(&event)`: a plain insert of the taxable-event row, wired to the
already fetched-or-created block and (optional) address rows. -/
def insertTaxableEvent (s : OsmoState) (e : OsmoTaxableEvent) (blockRowID : Nat)
    (addrID : Option Nat) : OsmoState :=
  { s with taxableEvents := s.taxableEvents ++
      [{ id := s.taxableEvents.length + 1, eventHash := e.eventHash,
         amount := e.amount, blockRowID := blockRowID, eventAddressID := addrID,
         denomBase := e.denomBase, denomSymbol := e.denomSymbol }] }

/-- Body executed for one event inside the `createTaxableEvents`
transaction: fetch-or-create Chain and Block, fetch-or-create the event
address only when non-empty, require a resolved denomination, then insert
the event row. -/
def createOneEvent (s : OsmoState) (e : OsmoTaxableEvent) : Res OsmoState :=
  let sc := firstOrCreateChain s e.chainID e.chainName
  let sb := firstOrCreateOsmoBlock sc.1 e.blockHeight sc.2
  let sa : OsmoState × Option Nat :=
    if e.eventAddress == "" then (sb.1, none)
    else
      let r := firstOrCreateOsmoAddress sb.1 e.eventAddress
      (r.1, some r.2)
  if e.denomBase == "" || e.denomSymbol == "" then
    .err "denom not cached"
  else
    .ok (insertTaxableEvent sa.1 e sb.2 sa.2)

def createEventsLoop : OsmoState → List OsmoTaxableEvent → Res OsmoState
  | s, [] => .ok s
  | s, e :: rest =>
      match createOneEvent s e with
      | .ok s' => createEventsLoop s' rest
      | .err m => .err m
      | .fatal m => .fatal m

/-- `createTaxableEvents`: one `db.Transaction`; an error rolls the whole
batch back. -/
def createTaxableEvents (s : OsmoState) (events : List OsmoTaxableEvent) :
    OsmoState × DBResult :=
  match createEventsLoop s events with
  | .ok s' => (s', .ok)
  | .err m => (s, .err m)
  | .fatal m => (s, .fatal m)

/-- The batch loop of `IndexOsmoRewards` (src/db/osmosis.go lines
100-118): steps of 500 over the hash-sorted candidates; the final batch
end is clamped to `len-1` when `i+500` overshoots; a batch whose first
event's hash already exists is skipped. -/
def rewardsBatchLoop (s : OsmoState) (dbEvents : List OsmoTaxableEvent)
    (i : Nat) : OsmoState × DBResult :=
  if hlt : i < dbEvents.length then
    let batchEnd := if i + 500 > dbEvents.length then dbEvents.length - 1
      else i + 500
    if eventExists s (dbEvents.get ⟨i, hlt⟩) then
      rewardsBatchLoop s dbEvents (i + 500)
    else
      match createTaxableEvents s ((dbEvents.drop i).take (batchEnd - i)) with
      | (s', DBResult.ok) => rewardsBatchLoop s' dbEvents (i + 500)
      | (s', r) => (s', r)
  else (s, DBResult.ok)
termination_by dbEvents.length - i
decreasing_by all_goals omega

/-- Stable insertion sort on the hash (models `sort.SliceStable` with the
`EventHash` comparator). -/
def insertByHash (e : OsmoTaxableEvent) : List OsmoTaxableEvent → List OsmoTaxableEvent
  | [] => [e]
  | x :: xs =>
      if x.eventHash < e.eventHash then x :: insertByHash e xs else e :: x :: xs

def sortByHash : List OsmoTaxableEvent → List OsmoTaxableEvent
  | [] => []
  | e :: rest => insertByHash e (sortByHash rest)

/-- `IndexOsmoRewards` after the flattening/denom-resolution phase: sort
the candidates by hash, then run the batch loop from index 0. -/
def indexOsmoRewardsBatches (s : OsmoState) (candidates : List OsmoTaxableEvent) :
    OsmoState × DBResult :=
  rewardsBatchLoop s (sortByHash candidates) 0

/-! ## ChainClient (src/unnamed/part_000) -/

structure HttpResponse (β : Type) where
  statusCode : Nat
  status : String
  body : β

inductive ClientError where
  | httpError (msg : String)
  | decodeError
deriving DecidableEq, Repr

/-- `checkResponseErrorCode`: any non-200 status is an error carrying the
endpoint and status. -/
def checkResponseErrorCode {β : Type} (endpoint : String) (resp : HttpResponse β) :
    Option ClientError :=
  if resp.statusCode ≠ 200 then
    some (ClientError.httpError
      ("Error getting response for endpoint " ++ endpoint ++ ": Status " ++ resp.status))
  else none

/-- `GetBlockByHeight`: the result of `json.Unmarshal` is dropped in the
source, so a body that fails to decode still yields a nil error and the
zero-value result. -/
def GetBlockByHeight {β α : Type} (zero : α) (unmarshal : β → Option α)
    (endpoint : String) (resp : HttpResponse β) : Except ClientError α :=
  match checkResponseErrorCode endpoint resp with
  | some e => .error e
  | none =>
      match unmarshal resp.body with
      | some v => .ok v
      | none => .ok zero

/-- `GetTxsByBlockHeight`: the unmarshal error is checked and returned. -/
def GetTxsByBlockHeight {β α : Type} (unmarshal : β → Option α)
    (endpoint : String) (resp : HttpResponse β) : Except ClientError α :=
  match checkResponseErrorCode endpoint resp with
  | some e => .error e
  | none =>
      match unmarshal resp.body with
      | some v => .ok v
      | none => .error ClientError.decodeError

/-- `GetLatestBlock`: the unmarshal error is checked and returned. -/
def GetLatestBlock {β α : Type} (unmarshal : β → Option α)
    (endpoint : String) (resp : HttpResponse β) : Except ClientError α :=
  match checkResponseErrorCode endpoint resp with
  | some e => .error e
  | none =>
      match unmarshal resp.body with
      | some v => .ok v
      | none => .error ClientError.decodeError

def isErrorResult {α : Type} : Except ClientError α → Bool
  | .error _ => true
  | .ok _ => false

/-! ## Osmosis lemmas -/

structure OExt (s t : OsmoState) : Prop where
  chains : Extends s.chains t.chains
  osmoBlocks : Extends s.osmoBlocks t.osmoBlocks
  addresses : Extends s.addresses t.addresses
  taxableEvents : Extends s.taxableEvents t.taxableEvents

/-! ## Concrete fixtures -/

def wFee : FeeInput :=
  { amount := 500, denomination := { id := 7, base := "uatom", symbol := "ATOM" },
    payerAddress := { address := "cosmos1foo" } }

def wMsg : MessageDBWrapper :=
  { message := { messageType := { messageType := "/cosmos.bank.v1beta1.MsgSend" },
                 messageIndex := 0 },
    taxableTxs := [ { taxableTx := { amountSent := 500, amountReceived := 500,
                                     denominationSentID := 7,
                                     denominationReceivedID := 7 },
                      senderAddress := { address := "cosmos1foo" },
                      receiverAddress := { address := "cosmos1bar" } } ] }

def wTx : TxDBWrapper :=
  { tx := { hash := "abc123", code := 0, fees := [wFee] },
    signerAddress := { address := "cosmos1foo" },
    messages := [wMsg] }

def cFeeBad : FeeInput :=
  { amount := 500, denomination := { id := 7, base := "uatom", symbol := "ATOM" },
    payerAddress := { address := "" } }

def cTxBadFee : TxDBWrapper :=
  { tx := { hash := "deadbeef", code := 0, fees := [cFeeBad] },
    signerAddress := { address := "" }, messages := [] }

def cTxBadMsg : TxDBWrapper :=
  { tx := { hash := "cafe1234", code := 0, fees := [] },
    signerAddress := { address := "" },
    messages := [ { message := { messageType := { messageType := "" },
                                 messageIndex := 0 }, taxableTxs := [] } ] }

def mkIndexedBlock (i : Nat) (h : Int) : BlockRow :=
  { id := i, height := h, timeStamp := 0, indexed := true, blockchainID := 1 }

def c3Blocks : List BlockRow :=
  [mkIndexedBlock 1 1, mkIndexedBlock 2 2, mkIndexedBlock 3 4, mkIndexedBlock 4 5]

def c45Blocks : List BlockRow := [mkIndexedBlock 1 5]

def wEv : OsmoTaxableEvent :=
  { eventHash := "a1", amount := 10, denomBase := "uosmo", denomSymbol := "OSMO",
    blockHeight := 7, chainID := "osmosis-1", chainName := "osmosis",
    eventAddress := "osmo1x" }

def wEvNoAddr : OsmoTaxableEvent :=
  { wEv with eventHash := "b2", eventAddress := "" }

def wEvBadDenom : OsmoTaxableEvent :=
  { wEv with eventHash := "c3", denomBase := "" }

def osmoSkipState : OsmoState :=
  { emptyOsmoState with taxableEvents :=
      [{ id := 1, eventHash := "a1", amount := 1, blockRowID := 1,
         eventAddressID := none, denomBase := "u", denomSymbol := "U" }] }

def w9State : DBState := { emptyState with failedBlocks := [(100, 1)] }

def cResp : HttpResponse String :=
  { statusCode := 200, status := "200 OK", body := "not json" }

def cUnmarshalFail : String → Option Nat := fun _ => none

/-! ### Theorems -/

theorem Extends.refl {α : Type} (l : List α) : Extends l l := ⟨[], by simp⟩

theorem Extends.trans {α : Type} {l m n : List α}
    (h1 : Extends l m) (h2 : Extends m n) : Extends l n := by
  obtain ⟨t1, rfl⟩ := h1
  obtain ⟨t2, rfl⟩ := h2
  exact ⟨t1 ++ t2, by simp⟩

theorem Extends.append {α : Type} (l t : List α) : Extends l (l ++ t) := ⟨t, rfl⟩

/-- A successful `find?` is stable under appending rows: the first match
cannot change when the table only grows at the end. -/
theorem find?_stable {α : Type} {p : α → Bool} {l l' : List α} {a : α}
    (hext : Extends l l') (h : l.find? p = some a) : l'.find? p = some a := by
  obtain ⟨t, rfl⟩ := hext
  induction l with
  | nil => simp [List.find?] at h
  | cons x xs ih =>
      rw [List.cons_append]
      cases hx : p x with
      | true =>
          rw [List.find?_cons_of_pos _ hx] at h ⊢
          exact h
      | false =>
          rw [List.find?_cons_of_neg _ (by simp [hx])] at h ⊢
          exact ih h

theorem find?_append_none {α : Type} {p : α → Bool} {l : List α}
    (h : l.find? p = none) (t : List α) : (l ++ t).find? p = t.find? p := by
  induction l with
  | nil => simp
  | cons x xs ih =>
      cases hx : p x with
      | true => rw [List.find?_cons_of_pos _ hx] at h; exact absurd h (by simp)
      | false =>
          rw [List.find?_cons_of_neg _ (by simp [hx])] at h
          rw [List.cons_append, List.find?_cons_of_neg _ (by simp [hx])]
          exact ih h

theorem replaceFirst_self {α : Type} {l : List α} {p : α → Bool} {a : α}
    (h : l.find? p = some a) : replaceFirst l p a = l := by
  induction l with
  | nil => simp [List.find?] at h
  | cons x xs ih =>
      cases hx : p x with
      | true =>
          rw [List.find?_cons_of_pos _ hx] at h
          simp only [replaceFirst, hx, if_pos]
          simp_all
      | false =>
          rw [List.find?_cons_of_neg _ (by simp [hx])] at h
          simp only [replaceFirst, hx]
          simp [ih h]

theorem find?_replaceFirst {α : Type} {l : List α} {p : α → Bool} {a b : α}
    (h : l.find? p = some b) (ha : p a = true) :
    (replaceFirst l p a).find? p = some a := by
  induction l with
  | nil => simp [List.find?] at h
  | cons x xs ih =>
      cases hx : p x with
      | true =>
          simp only [replaceFirst, hx, if_pos]
          rw [List.find?_cons_of_pos _ ha]
      | false =>
          rw [List.find?_cons_of_neg _ (by simp [hx])] at h
          have hstep : replaceFirst (x :: xs) p a = x :: replaceFirst xs p a := by
            simp [replaceFirst, hx]
          rw [hstep, List.find?_cons_of_neg _ (by simp [hx])]
          exact ih h

theorem filter_idem {α : Type} (p : α → Bool) (l : List α) :
    (l.filter p).filter p = l.filter p := by
  induction l with
  | nil => rfl
  | cons x xs ih =>
      cases hx : p x with
      | true => simp [List.filter, hx, ih]
      | false => simp [List.filter, hx, ih]

theorem firstOrCreate_extends {ρ : Type} [HasRowId ρ] (table : List ρ)
    (p : ρ → Bool) (mk : Nat → ρ) : Extends table (firstOrCreate table p mk).1 := by
  unfold firstOrCreate
  cases h : table.find? p with
  | some r => exact Extends.refl table
  | none => exact Extends.append _ _

/-- After a fetch-or-create, the table holds a row matching the key whose
identifier is the returned one. -/
theorem firstOrCreate_found {ρ : Type} [HasRowId ρ] (table : List ρ)
    (p : ρ → Bool) (mk : Nat → ρ) {t' : List ρ} {i : Nat}
    (hmk : ∀ n, p (mk n) = true)
    (h : firstOrCreate table p mk = (t', i)) :
    ∃ r, t'.find? p = some r ∧ HasRowId.rowId r = i := by
  unfold firstOrCreate at h
  cases hf : table.find? p with
  | some r =>
      rw [hf] at h
      refine ⟨r, ?_, ?_⟩
      · have : t' = table := by cases h; rfl
        rw [this]; exact hf
      · cases h; rfl
  | none =>
      rw [hf] at h
      simp only at h
      refine ⟨mk (table.length + 1), ?_, ?_⟩
      · have ht : t' = table ++ [mk (table.length + 1)] := by cases h; rfl
        rw [ht, find?_append_none hf]
        simp [List.find?, hmk]
      · cases h; rfl

/-- Re-running a fetch-or-create against any later state that extends the
post-state is a no-op returning the same identifier. -/
theorem firstOrCreate_stable {ρ : Type} [HasRowId ρ] {table t' u : List ρ}
    {p : ρ → Bool} {mk : Nat → ρ} {i : Nat}
    (hmk : ∀ n, p (mk n) = true)
    (h : firstOrCreate table p mk = (t', i)) (hext : Extends t' u) :
    firstOrCreate u p mk = (u, i) := by
  obtain ⟨r, hr, hid⟩ := firstOrCreate_found _ _ _ hmk h
  have hu : u.find? p = some r := find?_stable hext hr
  unfold firstOrCreate
  rw [hu]
  simp [hid]

theorem Ext.extRefl (s : DBState) : Ext s s :=
  ⟨Eq.refl _, Extends.refl _, Extends.refl _, Extends.refl _, Extends.refl _,
   Extends.refl _, Extends.refl _, Extends.refl _⟩

theorem Ext.extComp {s t u : DBState} (h1 : Ext s t) (h2 : Ext t u) : Ext s u :=
  ⟨h1.failed.trans h2.failed, h1.blocks.trans h2.blocks, h1.txs.trans h2.txs,
   h1.addresses.trans h2.addresses, h1.fees.trans h2.fees,
   h1.messageTypes.trans h2.messageTypes, h1.messages.trans h2.messages,
   h1.taxableTransactions.trans h2.taxableTransactions⟩

theorem firstOrCreateAddress_ext (s : DBState) (a : String) :
    Ext s (firstOrCreateAddress s a).1 := by
  refine ⟨Eq.refl _, Extends.refl _, Extends.refl _, ?_, Extends.refl _,
    Extends.refl _, Extends.refl _, Extends.refl _⟩
  exact firstOrCreate_extends _ _ _

theorem firstOrCreateTx_ext (s : DBState) (h : String) (c bid : Nat) (sg : Option Nat) :
    Ext s (firstOrCreateTx s h c bid sg).1 := by
  refine ⟨Eq.refl _, Extends.refl _, ?_, Extends.refl _, Extends.refl _,
    Extends.refl _, Extends.refl _, Extends.refl _⟩
  exact firstOrCreate_extends _ _ _

theorem firstOrCreateFee_ext (s : DBState) (t d : Nat) (a : Int) (p : Nat) :
    Ext s (firstOrCreateFee s t d a p).1 := by
  refine ⟨Eq.refl _, Extends.refl _, Extends.refl _, Extends.refl _, ?_,
    Extends.refl _, Extends.refl _, Extends.refl _⟩
  exact firstOrCreate_extends _ _ _

theorem firstOrCreateMessageType_ext (s : DBState) (mt : String) :
    Ext s (firstOrCreateMessageType s mt).1 := by
  refine ⟨Eq.refl _, Extends.refl _, Extends.refl _, Extends.refl _,
    Extends.refl _, ?_, Extends.refl _, Extends.refl _⟩
  exact firstOrCreate_extends _ _ _

theorem firstOrCreateMessage_ext (s : DBState) (t mt : Nat) (i : Int) :
    Ext s (firstOrCreateMessage s t mt i).1 := by
  refine ⟨Eq.refl _, Extends.refl _, Extends.refl _, Extends.refl _,
    Extends.refl _, Extends.refl _, ?_, Extends.refl _⟩
  exact firstOrCreate_extends _ _ _

theorem firstOrCreateTaxableTx_ext (s : DBState) (m : Nat) (tt : TaxableTxInput)
    (sd rv : Option Nat) : Ext s (firstOrCreateTaxableTx s m tt sd rv).1 := by
  refine ⟨Eq.refl _, Extends.refl _, Extends.refl _, Extends.refl _,
    Extends.refl _, Extends.refl _, Extends.refl _, ?_⟩
  exact firstOrCreate_extends _ _ _

/-! Stability: re-running a fetch-or-create on any `Ext`-later state is a
no-op with the same generated identifier. -/

theorem firstOrCreateAddress_stable {s s' t : DBState} {a : String} {i : Nat}
    (h : firstOrCreateAddress s a = (s', i)) (hext : Ext s' t) :
    firstOrCreateAddress t a = (t, i) := by
  unfold firstOrCreateAddress at h ⊢
  have hs : firstOrCreate s.addresses (fun x => x.address == a)
      (fun n => { id := n, address := a }) = (s'.addresses, i) := by
    have h1 := congrArg (fun q : DBState × Nat => q.1.addresses) h
    have h2 := congrArg (fun q : DBState × Nat => q.2) h
    simp only at h1 h2
    exact Prod.ext h1 h2
  have := firstOrCreate_stable (by simp) hs hext.addresses
  simp only [this]

theorem firstOrCreateTx_stable {s s' t : DBState} {hsh : String} {c bid : Nat}
    {sg : Option Nat} {i : Nat}
    (h : firstOrCreateTx s hsh c bid sg = (s', i)) (hext : Ext s' t) :
    firstOrCreateTx t hsh c bid sg = (t, i) := by
  unfold firstOrCreateTx at h ⊢
  have hs : firstOrCreate s.txs (fun x => x.hash == hsh)
      (fun n => { id := n, hash := hsh, code := c, blockID := bid,
                  signerAddressID := sg }) = (s'.txs, i) := by
    have h1 := congrArg (fun q : DBState × Nat => q.1.txs) h
    have h2 := congrArg (fun q : DBState × Nat => q.2) h
    simp only at h1 h2
    exact Prod.ext h1 h2
  have := firstOrCreate_stable (by simp) hs hext.txs
  simp only [this]

theorem firstOrCreateFee_stable {s s' t : DBState} {tid d : Nat} {a : Int}
    {p : Nat} {i : Nat}
    (h : firstOrCreateFee s tid d a p = (s', i)) (hext : Ext s' t) :
    firstOrCreateFee t tid d a p = (t, i) := by
  unfold firstOrCreateFee at h ⊢
  have hs : firstOrCreate s.fees (fun x => x.txID == tid && x.denominationID == d)
      (fun n => { id := n, txID := tid, amount := a, denominationID := d,
                  payerAddressID := p }) = (s'.fees, i) := by
    have h1 := congrArg (fun q : DBState × Nat => q.1.fees) h
    have h2 := congrArg (fun q : DBState × Nat => q.2) h
    simp only at h1 h2
    exact Prod.ext h1 h2
  have := firstOrCreate_stable (by simp) hs hext.fees
  simp only [this]

theorem firstOrCreateMessageType_stable {s s' t : DBState} {mt : String} {i : Nat}
    (h : firstOrCreateMessageType s mt = (s', i)) (hext : Ext s' t) :
    firstOrCreateMessageType t mt = (t, i) := by
  unfold firstOrCreateMessageType at h ⊢
  have hs : firstOrCreate s.messageTypes (fun x => x.messageType == mt)
      (fun n => { id := n, messageType := mt }) = (s'.messageTypes, i) := by
    have h1 := congrArg (fun q : DBState × Nat => q.1.messageTypes) h
    have h2 := congrArg (fun q : DBState × Nat => q.2) h
    simp only at h1 h2
    exact Prod.ext h1 h2
  have := firstOrCreate_stable (by simp) hs hext.messageTypes
  simp only [this]

theorem firstOrCreateMessage_stable {s s' t : DBState} {tid mt : Nat} {ix : Int}
    {i : Nat}
    (h : firstOrCreateMessage s tid mt ix = (s', i)) (hext : Ext s' t) :
    firstOrCreateMessage t tid mt ix = (t, i) := by
  unfold firstOrCreateMessage at h ⊢
  have hs : firstOrCreate s.messages
      (fun x => x.txID == tid && x.messageTypeID == mt && x.messageIndex == ix)
      (fun n => { id := n, txID := tid, messageTypeID := mt, messageIndex := ix }) =
      (s'.messages, i) := by
    have h1 := congrArg (fun q : DBState × Nat => q.1.messages) h
    have h2 := congrArg (fun q : DBState × Nat => q.2) h
    simp only at h1 h2
    exact Prod.ext h1 h2
  have := firstOrCreate_stable (by simp) hs hext.messages
  simp only [this]

theorem firstOrCreateTaxableTx_stable {s s' t : DBState} {m : Nat}
    {tt : TaxableTxInput} {sd rv : Option Nat} {i : Nat}
    (h : firstOrCreateTaxableTx s m tt sd rv = (s', i)) (hext : Ext s' t) :
    firstOrCreateTaxableTx t m tt sd rv = (t, i) := by
  unfold firstOrCreateTaxableTx at h ⊢
  have hs : firstOrCreate s.taxableTransactions
      (fun x => x.messageID == m && x.amountSent == tt.amountSent &&
                x.amountReceived == tt.amountReceived)
      (fun n => { id := n, messageID := m, amountSent := tt.amountSent,
                  amountReceived := tt.amountReceived,
                  denominationSentID := tt.denominationSentID,
                  denominationReceivedID := tt.denominationReceivedID,
                  senderAddressID := sd, receiverAddressID := rv }) =
      (s'.taxableTransactions, i) := by
    have h1 := congrArg (fun q : DBState × Nat => q.1.taxableTransactions) h
    have h2 := congrArg (fun q : DBState × Nat => q.2) h
    simp only at h1 h2
    exact Prod.ext h1 h2
  have := firstOrCreate_stable (by simp) hs hext.taxableTransactions
  simp only [this]

/-! ## Re-run lemmas for the transaction body -/

theorem processFee_ok {txID : Nat} {s s' : DBState} {f : FeeInput}
    (h : processFee txID s f = .ok s') :
    Ext s s' ∧ ∀ t, Ext s' t → processFee txID t f = .ok t := by
  by_cases hp : (f.payerAddress.address == "") = true
  · rw [processFee, if_pos hp] at h; exact absurd h (by simp)
  · by_cases hd : (f.denomination.base == "" || f.denomination.symbol == "") = true
    · rw [processFee, if_neg hp, if_pos hd] at h; exact absurd h (by simp)
    · have hdef : ∀ u : DBState, processFee txID u f =
          .ok (firstOrCreateFee (firstOrCreateAddress u f.payerAddress.address).1
            txID f.denomination.id f.amount
            (firstOrCreateAddress u f.payerAddress.address).2).1 := by
        intro u
        rw [processFee, if_neg hp, if_neg hd]
      rw [hdef s] at h
      have hs' : (firstOrCreateFee (firstOrCreateAddress s f.payerAddress.address).1
          txID f.denomination.id f.amount
          (firstOrCreateAddress s f.payerAddress.address).2).1 = s' := by
        cases h; rfl
      have hext2 : Ext (firstOrCreateAddress s f.payerAddress.address).1 s' := by
        rw [← hs']; exact firstOrCreateFee_ext _ _ _ _ _
      refine ⟨(firstOrCreateAddress_ext s f.payerAddress.address).extComp hext2,
        fun t ht => ?_⟩
      rw [hdef t]
      have ha : firstOrCreateAddress t f.payerAddress.address =
          (t, (firstOrCreateAddress s f.payerAddress.address).2) :=
        firstOrCreateAddress_stable rfl (hext2.extComp ht)
      rw [ha]
      have hfe : firstOrCreateFee (firstOrCreateAddress s f.payerAddress.address).1
          txID f.denomination.id f.amount
          (firstOrCreateAddress s f.payerAddress.address).2 =
          (s', (firstOrCreateFee (firstOrCreateAddress s f.payerAddress.address).1
            txID f.denomination.id f.amount
            (firstOrCreateAddress s f.payerAddress.address).2).2) := by
        rw [← hs']
      rw [firstOrCreateFee_stable hfe ht]

theorem processFees_ok {txID : Nat} {fs : List FeeInput} {s s' : DBState}
    (h : processFees txID s fs = .ok s') :
    Ext s s' ∧ ∀ t, Ext s' t → processFees txID t fs = .ok t := by
  induction fs generalizing s with
  | nil =>
      simp only [processFees] at h
      cases h
      exact ⟨Ext.extRefl s', fun t _ => rfl⟩
  | cons f rest ih =>
      simp only [processFees] at h
      cases hf : processFee txID s f with
      | ok s1 =>
          rw [hf] at h
          obtain ⟨he1, hst1⟩ := processFee_ok hf
          obtain ⟨he2, hst2⟩ := ih h
          refine ⟨he1.extComp he2, fun t ht => ?_⟩
          simp only [processFees]
          rw [hst1 t (he2.extComp ht)]
          exact hst2 t ht
      | err m => rw [hf] at h; exact absurd h (by simp)
      | fatal m => rw [hf] at h; exact absurd h (by simp)

/-- Normalised shape of `processTaxableTx` once the two emptiness tests on
the sender/receiver address strings are decided. -/
theorem processTaxableTx_eq (msgID : Nat) (u : DBState) (tt : TaxableTxDBWrapper) :
    processTaxableTx msgID u tt =
      (let ssnd : DBState × Option Nat :=
        if tt.senderAddress.address == "" then (u, none)
        else
          let r := firstOrCreateAddress u tt.senderAddress.address
          (r.1, some r.2)
      let srcv : DBState × Option Nat :=
        if tt.receiverAddress.address == "" then (ssnd.1, none)
        else
          let r := firstOrCreateAddress ssnd.1 tt.receiverAddress.address
          (r.1, some r.2)
      (firstOrCreateTaxableTx srcv.1 msgID tt.taxableTx ssnd.2 srcv.2).1) := rfl

theorem processTaxableTx_ok (msgID : Nat) (s : DBState) (tt : TaxableTxDBWrapper) :
    Ext s (processTaxableTx msgID s tt) ∧
    ∀ t, Ext (processTaxableTx msgID s tt) t → processTaxableTx msgID t tt = t := by
  by_cases hs : (tt.senderAddress.address == "") = true
  · by_cases hr : (tt.receiverAddress.address == "") = true
    · have hdef : ∀ u : DBState, processTaxableTx msgID u tt =
          (firstOrCreateTaxableTx u msgID tt.taxableTx none none).1 := by
        intro u
        rw [processTaxableTx_eq]
        simp only [if_pos hs, if_pos hr]
      rw [hdef s]
      refine ⟨firstOrCreateTaxableTx_ext _ _ _ _ _, fun t ht => ?_⟩
      rw [hdef t, firstOrCreateTaxableTx_stable rfl ht]
    · have hdef : ∀ u : DBState, processTaxableTx msgID u tt =
          (firstOrCreateTaxableTx (firstOrCreateAddress u tt.receiverAddress.address).1
            msgID tt.taxableTx none
            (some (firstOrCreateAddress u tt.receiverAddress.address).2)).1 := by
        intro u
        rw [processTaxableTx_eq]
        simp only [if_pos hs, if_neg hr]
      rw [hdef s]
      have hext2 : Ext (firstOrCreateAddress s tt.receiverAddress.address).1
          (firstOrCreateTaxableTx (firstOrCreateAddress s tt.receiverAddress.address).1
            msgID tt.taxableTx none
            (some (firstOrCreateAddress s tt.receiverAddress.address).2)).1 :=
        firstOrCreateTaxableTx_ext _ _ _ _ _
      refine ⟨(firstOrCreateAddress_ext _ _).extComp hext2, fun t ht => ?_⟩
      rw [hdef t]
      have ha : firstOrCreateAddress t tt.receiverAddress.address =
          (t, (firstOrCreateAddress s tt.receiverAddress.address).2) :=
        firstOrCreateAddress_stable rfl (hext2.extComp ht)
      rw [ha, firstOrCreateTaxableTx_stable rfl ht]
  · by_cases hr : (tt.receiverAddress.address == "") = true
    · have hdef : ∀ u : DBState, processTaxableTx msgID u tt =
          (firstOrCreateTaxableTx (firstOrCreateAddress u tt.senderAddress.address).1
            msgID tt.taxableTx
            (some (firstOrCreateAddress u tt.senderAddress.address).2) none).1 := by
        intro u
        rw [processTaxableTx_eq]
        simp only [if_neg hs, if_pos hr]
      rw [hdef s]
      have hext2 : Ext (firstOrCreateAddress s tt.senderAddress.address).1
          (firstOrCreateTaxableTx (firstOrCreateAddress s tt.senderAddress.address).1
            msgID tt.taxableTx
            (some (firstOrCreateAddress s tt.senderAddress.address).2) none).1 :=
        firstOrCreateTaxableTx_ext _ _ _ _ _
      refine ⟨(firstOrCreateAddress_ext _ _).extComp hext2, fun t ht => ?_⟩
      rw [hdef t]
      have ha : firstOrCreateAddress t tt.senderAddress.address =
          (t, (firstOrCreateAddress s tt.senderAddress.address).2) :=
        firstOrCreateAddress_stable rfl (hext2.extComp ht)
      rw [ha, firstOrCreateTaxableTx_stable rfl ht]
    · have hdef : ∀ u : DBState, processTaxableTx msgID u tt =
          (firstOrCreateTaxableTx
            (firstOrCreateAddress (firstOrCreateAddress u tt.senderAddress.address).1
              tt.receiverAddress.address).1
            msgID tt.taxableTx
            (some (firstOrCreateAddress u tt.senderAddress.address).2)
            (some (firstOrCreateAddress
              (firstOrCreateAddress u tt.senderAddress.address).1
              tt.receiverAddress.address).2)).1 := by
        intro u
        rw [processTaxableTx_eq]
        simp only [if_neg hs, if_neg hr]
      rw [hdef s]
      have hext3 : Ext (firstOrCreateAddress
          (firstOrCreateAddress s tt.senderAddress.address).1
          tt.receiverAddress.address).1
          (firstOrCreateTaxableTx
            (firstOrCreateAddress (firstOrCreateAddress s tt.senderAddress.address).1
              tt.receiverAddress.address).1
            msgID tt.taxableTx
            (some (firstOrCreateAddress s tt.senderAddress.address).2)
            (some (firstOrCreateAddress
              (firstOrCreateAddress s tt.senderAddress.address).1
              tt.receiverAddress.address).2)).1 :=
        firstOrCreateTaxableTx_ext _ _ _ _ _
      have hext2 : Ext (firstOrCreateAddress s tt.senderAddress.address).1
          (firstOrCreateAddress (firstOrCreateAddress s tt.senderAddress.address).1
            tt.receiverAddress.address).1 :=
        firstOrCreateAddress_ext _ _
      refine ⟨((firstOrCreateAddress_ext _ _).extComp hext2).extComp hext3, fun t ht => ?_⟩
      rw [hdef t]
      have ha1 : firstOrCreateAddress t tt.senderAddress.address =
          (t, (firstOrCreateAddress s tt.senderAddress.address).2) :=
        firstOrCreateAddress_stable rfl ((hext2.extComp hext3).extComp ht)
      rw [ha1]
      have ha2 : firstOrCreateAddress t tt.receiverAddress.address =
          (t, (firstOrCreateAddress
            (firstOrCreateAddress s tt.senderAddress.address).1
            tt.receiverAddress.address).2) :=
        firstOrCreateAddress_stable rfl (hext3.extComp ht)
      rw [ha2, firstOrCreateTaxableTx_stable rfl ht]

theorem foldlTaxable_ok (msgID : Nat) (l : List TaxableTxDBWrapper) (s : DBState) :
    Ext s (l.foldl (processTaxableTx msgID) s) ∧
    ∀ t, Ext (l.foldl (processTaxableTx msgID) s) t →
      l.foldl (processTaxableTx msgID) t = t := by
  induction l generalizing s with
  | nil => exact ⟨Ext.extRefl s, fun t _ => rfl⟩
  | cons tt rest ih =>
      simp only [List.foldl_cons]
      obtain ⟨he1, hst1⟩ := processTaxableTx_ok msgID s tt
      obtain ⟨he2, hst2⟩ := ih (processTaxableTx msgID s tt)
      refine ⟨he1.extComp he2, fun t ht => ?_⟩
      rw [hst1 t (he2.extComp ht)]
      exact hst2 t ht

theorem processMessage_ok {txID : Nat} {s s' : DBState} {m : MessageDBWrapper}
    (h : processMessage txID s m = .ok s') :
    Ext s s' ∧ ∀ t, Ext s' t → processMessage txID t m = .ok t := by
  by_cases hm : (m.message.messageType.messageType == "") = true
  · rw [processMessage, if_pos hm] at h; exact absurd h (by simp)
  · have hdef : ∀ u : DBState, processMessage txID u m =
        .ok (m.taxableTxs.foldl
          (processTaxableTx
            (firstOrCreateMessage
              (firstOrCreateMessageType u m.message.messageType.messageType).1 txID
              (firstOrCreateMessageType u m.message.messageType.messageType).2
              m.message.messageIndex).2)
          (firstOrCreateMessage
            (firstOrCreateMessageType u m.message.messageType.messageType).1 txID
            (firstOrCreateMessageType u m.message.messageType.messageType).2
            m.message.messageIndex).1) := by
      intro u
      rw [processMessage, if_neg hm]
    rw [hdef s] at h
    have hs' : m.taxableTxs.foldl
        (processTaxableTx
          (firstOrCreateMessage
            (firstOrCreateMessageType s m.message.messageType.messageType).1 txID
            (firstOrCreateMessageType s m.message.messageType.messageType).2
            m.message.messageIndex).2)
        (firstOrCreateMessage
          (firstOrCreateMessageType s m.message.messageType.messageType).1 txID
          (firstOrCreateMessageType s m.message.messageType.messageType).2
          m.message.messageIndex).1 = s' := by
      cases h; rfl
    have hext1 : Ext s (firstOrCreateMessageType s m.message.messageType.messageType).1 :=
      firstOrCreateMessageType_ext _ _
    have hext2 : Ext (firstOrCreateMessageType s m.message.messageType.messageType).1
        (firstOrCreateMessage
          (firstOrCreateMessageType s m.message.messageType.messageType).1 txID
          (firstOrCreateMessageType s m.message.messageType.messageType).2
          m.message.messageIndex).1 :=
      firstOrCreateMessage_ext _ _ _ _
    have hext3 : Ext (firstOrCreateMessage
        (firstOrCreateMessageType s m.message.messageType.messageType).1 txID
        (firstOrCreateMessageType s m.message.messageType.messageType).2
        m.message.messageIndex).1 s' := by
      rw [← hs']
      exact (foldlTaxable_ok _ _ _).1
    refine ⟨(hext1.extComp hext2).extComp hext3, fun t ht => ?_⟩
    rw [hdef t]
    have hmt : firstOrCreateMessageType t m.message.messageType.messageType =
        (t, (firstOrCreateMessageType s m.message.messageType.messageType).2) :=
      firstOrCreateMessageType_stable rfl ((hext2.extComp hext3).extComp ht)
    rw [hmt]
    have hmsg : firstOrCreateMessage t txID
        (firstOrCreateMessageType s m.message.messageType.messageType).2
        m.message.messageIndex =
        (t, (firstOrCreateMessage
          (firstOrCreateMessageType s m.message.messageType.messageType).1 txID
          (firstOrCreateMessageType s m.message.messageType.messageType).2
          m.message.messageIndex).2) :=
      firstOrCreateMessage_stable rfl (hext3.extComp ht)
    rw [hmsg]
    have hfold := (foldlTaxable_ok
      (firstOrCreateMessage
        (firstOrCreateMessageType s m.message.messageType.messageType).1 txID
        (firstOrCreateMessageType s m.message.messageType.messageType).2
        m.message.messageIndex).2 m.taxableTxs
      (firstOrCreateMessage
        (firstOrCreateMessageType s m.message.messageType.messageType).1 txID
        (firstOrCreateMessageType s m.message.messageType.messageType).2
        m.message.messageIndex).1).2 t (by rw [hs']; exact ht)
    rw [hfold]

theorem processMessages_ok {txID : Nat} {ms : List MessageDBWrapper} {s s' : DBState}
    (h : processMessages txID s ms = .ok s') :
    Ext s s' ∧ ∀ t, Ext s' t → processMessages txID t ms = .ok t := by
  induction ms generalizing s with
  | nil =>
      simp only [processMessages] at h
      cases h
      exact ⟨Ext.extRefl s', fun t _ => rfl⟩
  | cons m rest ih =>
      simp only [processMessages] at h
      cases hm : processMessage txID s m with
      | ok s1 =>
          rw [hm] at h
          obtain ⟨he1, hst1⟩ := processMessage_ok hm
          obtain ⟨he2, hst2⟩ := ih h
          refine ⟨he1.extComp he2, fun t ht => ?_⟩
          simp only [processMessages]
          rw [hst1 t (he2.extComp ht)]
          exact hst2 t ht
      | err msg => rw [hm] at h; exact absurd h (by simp)
      | fatal msg => rw [hm] at h; exact absurd h (by simp)

theorem processTx_ok {bid : Nat} {s s' : DBState} {w : TxDBWrapper}
    (h : processTx bid s w = .ok s') :
    Ext s s' ∧ ∀ t, Ext s' t → processTx bid t w = .ok t := by
  by_cases hsg : (w.signerAddress.address == "") = true
  · have hdef : ∀ u : DBState, processTx bid u w =
        processTxAfterFees (firstOrCreateTx u w.tx.hash w.tx.code bid none).2
          w.messages
          (processFees (firstOrCreateTx u w.tx.hash w.tx.code bid none).2
            (firstOrCreateTx u w.tx.hash w.tx.code bid none).1 w.tx.fees) := by
      intro u
      rw [processTx]
      simp only [if_pos hsg]
    rw [hdef s] at h
    cases hfees : processFees (firstOrCreateTx s w.tx.hash w.tx.code bid none).2
        (firstOrCreateTx s w.tx.hash w.tx.code bid none).1 w.tx.fees with
    | ok s2 =>
        rw [hfees] at h
        simp only [processTxAfterFees] at h
        obtain ⟨hef, hsf⟩ := processFees_ok hfees
        obtain ⟨hem, hsm⟩ := processMessages_ok h
        have hext1 : Ext s (firstOrCreateTx s w.tx.hash w.tx.code bid none).1 :=
          firstOrCreateTx_ext _ _ _ _ _
        refine ⟨(hext1.extComp hef).extComp hem, fun t ht => ?_⟩
        rw [hdef t]
        have htx : firstOrCreateTx t w.tx.hash w.tx.code bid none =
            (t, (firstOrCreateTx s w.tx.hash w.tx.code bid none).2) :=
          firstOrCreateTx_stable rfl ((hef.extComp hem).extComp ht)
        rw [htx]
        rw [hsf t (hem.extComp ht)]
        simp only [processTxAfterFees]
        exact hsm t ht
    | err m => rw [hfees] at h; exact absurd h (by simp [processTxAfterFees])
    | fatal m => rw [hfees] at h; exact absurd h (by simp [processTxAfterFees])
  · have hdef : ∀ u : DBState, processTx bid u w =
        processTxAfterFees
          (firstOrCreateTx (firstOrCreateAddress u w.signerAddress.address).1
            w.tx.hash w.tx.code bid
            (some (firstOrCreateAddress u w.signerAddress.address).2)).2
          w.messages
          (processFees
            (firstOrCreateTx (firstOrCreateAddress u w.signerAddress.address).1
              w.tx.hash w.tx.code bid
              (some (firstOrCreateAddress u w.signerAddress.address).2)).2
            (firstOrCreateTx (firstOrCreateAddress u w.signerAddress.address).1
              w.tx.hash w.tx.code bid
              (some (firstOrCreateAddress u w.signerAddress.address).2)).1
            w.tx.fees) := by
      intro u
      rw [processTx]
      simp only [if_neg hsg]
    rw [hdef s] at h
    cases hfees : processFees
        (firstOrCreateTx (firstOrCreateAddress s w.signerAddress.address).1
          w.tx.hash w.tx.code bid
          (some (firstOrCreateAddress s w.signerAddress.address).2)).2
        (firstOrCreateTx (firstOrCreateAddress s w.signerAddress.address).1
          w.tx.hash w.tx.code bid
          (some (firstOrCreateAddress s w.signerAddress.address).2)).1 w.tx.fees with
    | ok s2 =>
        rw [hfees] at h
        simp only [processTxAfterFees] at h
        obtain ⟨hef, hsf⟩ := processFees_ok hfees
        obtain ⟨hem, hsm⟩ := processMessages_ok h
        have hext0 : Ext s (firstOrCreateAddress s w.signerAddress.address).1 :=
          firstOrCreateAddress_ext _ _
        have hext1 : Ext (firstOrCreateAddress s w.signerAddress.address).1
            (firstOrCreateTx (firstOrCreateAddress s w.signerAddress.address).1
              w.tx.hash w.tx.code bid
              (some (firstOrCreateAddress s w.signerAddress.address).2)).1 :=
          firstOrCreateTx_ext _ _ _ _ _
        refine ⟨((hext0.extComp hext1).extComp hef).extComp hem, fun t ht => ?_⟩
        rw [hdef t]
        have ha : firstOrCreateAddress t w.signerAddress.address =
            (t, (firstOrCreateAddress s w.signerAddress.address).2) :=
          firstOrCreateAddress_stable rfl (((hext1.extComp hef).extComp hem).extComp ht)
        rw [ha]
        have htx : firstOrCreateTx t w.tx.hash w.tx.code bid
            (some (firstOrCreateAddress s w.signerAddress.address).2) =
            (t, (firstOrCreateTx (firstOrCreateAddress s w.signerAddress.address).1
              w.tx.hash w.tx.code bid
              (some (firstOrCreateAddress s w.signerAddress.address).2)).2) :=
          firstOrCreateTx_stable rfl ((hef.extComp hem).extComp ht)
        rw [htx]
        rw [hsf t (hem.extComp ht)]
        simp only [processTxAfterFees]
        exact hsm t ht
    | err m => rw [hfees] at h; exact absurd h (by simp [processTxAfterFees])
    | fatal m => rw [hfees] at h; exact absurd h (by simp [processTxAfterFees])

theorem processTxs_ok {bid : Nat} {ws : List TxDBWrapper} {s s' : DBState}
    (h : processTxs bid s ws = .ok s') :
    Ext s s' ∧ ∀ t, Ext s' t → processTxs bid t ws = .ok t := by
  induction ws generalizing s with
  | nil =>
      simp only [processTxs] at h
      cases h
      exact ⟨Ext.extRefl s', fun t _ => rfl⟩
  | cons w rest ih =>
      simp only [processTxs] at h
      cases hw : processTx bid s w with
      | ok s1 =>
          rw [hw] at h
          obtain ⟨he1, hst1⟩ := processTx_ok hw
          obtain ⟨he2, hst2⟩ := ih h
          refine ⟨he1.extComp he2, fun t ht => ?_⟩
          simp only [processTxs]
          rw [hst1 t (he2.extComp ht)]
          exact hst2 t ht
      | err m => rw [hw] at h; exact absurd h (by simp)
      | fatal m => rw [hw] at h; exact absurd h (by simp)

/-! ## Block upsert lemmas -/

theorem upsertBlock_failed (s : DBState) (height time : Int) (cid : Nat) :
    (upsertBlock s height time cid).1.failedBlocks = s.failedBlocks := by
  unfold upsertBlock
  split <;> rfl

theorem upsertBlock_stable {s s' t : DBState} {height time : Int} {cid i : Nat}
    (h : upsertBlock s height time cid = (s', i)) (hext : Ext s' t) :
    upsertBlock t height time cid = (t, i) := by
  unfold upsertBlock at h ⊢
  cases hf : s.blocks.find? (fun x => x.height == height && x.blockchainID == cid) with
  | some r =>
      rw [hf] at h
      simp only at h
      have hpr : (fun (x : BlockRow) => x.height == height && x.blockchainID == cid) r
          = true := by simpa using List.find?_some hf
      have hblocks : s'.blocks = replaceFirst s.blocks
          (fun x => x.height == height && x.blockchainID == cid)
          { r with indexed := true, timeStamp := time } := by
        cases h; rfl
      have hi : i = r.id := by cases h; rfl
      have hfind : s'.blocks.find?
          (fun x => x.height == height && x.blockchainID == cid) =
          some { r with indexed := true, timeStamp := time } := by
        rw [hblocks]
        exact find?_replaceFirst hf hpr
      have hft : t.blocks.find?
          (fun x => x.height == height && x.blockchainID == cid) =
          some { r with indexed := true, timeStamp := time } :=
        find?_stable hext.blocks hfind
      rw [hft]
      simp only
      rw [replaceFirst_self hft, hi]
  | none =>
      rw [hf] at h
      simp only at h
      have hblocks : s'.blocks = s.blocks ++
          [{ id := s.blocks.length + 1, height := height, timeStamp := time,
             indexed := true, blockchainID := cid }] := by
        cases h; rfl
      have hi : i = s.blocks.length + 1 := by cases h; rfl
      have hfind : s'.blocks.find?
          (fun x => x.height == height && x.blockchainID == cid) =
          some { id := s.blocks.length + 1, height := height, timeStamp := time,
                 indexed := true, blockchainID := cid } := by
        rw [hblocks, find?_append_none hf]
        simp [List.find?]
      have hft : t.blocks.find?
          (fun x => x.height == height && x.blockchainID == cid) =
          some { id := s.blocks.length + 1, height := height, timeStamp := time,
                 indexed := true, blockchainID := cid } :=
        find?_stable hext.blocks hfind
      rw [hft]
      simp only
      rw [replaceFirst_self hft, hi]

/-! ## Top-level transaction lemmas -/

theorem any_filter_not {α : Type} (q : α → Bool) (l : List α) :
    (l.filter (fun a => !(q a))).any q = false := by
  induction l with
  | nil => rfl
  | cons x xs ih =>
      cases hx : q x with
      | true => simp [List.filter, hx, ih]
      | false => simp [List.filter, hx, ih]

/-- Re-running the whole transaction body on its own successful result is
a no-op succeeding with the same state. -/
theorem runIndexNewBlock_ok {s0 s1 : DBState} {height time : Int}
    {txs : List TxDBWrapper} {cid : Nat}
    (h : runIndexNewBlock s0 height time txs cid = .ok s1) :
    runIndexNewBlock s1 height time txs cid = .ok s1 := by
  simp only [runIndexNewBlock] at h ⊢
  obtain ⟨hext, hstable⟩ := processTxs_ok h
  have hfail : s1.failedBlocks =
      s0.failedBlocks.filter (fun p => !(p.1 == height && p.2 == cid)) := by
    rw [← hext.failed, upsertBlock_failed]
    rfl
  have hdel : deleteFailedBlock s1 height cid = s1 := by
    unfold deleteFailedBlock
    rw [hfail, filter_idem]
    rw [← hfail]
  rw [hdel]
  rw [upsertBlock_stable rfl hext]
  exact hstable s1 (Ext.extRefl s1)

theorem processFee_not_fatal (txID : Nat) (s : DBState) (f : FeeInput) :
    (processFee txID s f).isFatal = false := by
  unfold processFee
  by_cases hp : (f.payerAddress.address == "") = true
  · rw [if_pos hp]; rfl
  · rw [if_neg hp]
    by_cases hd : (f.denomination.base == "" || f.denomination.symbol == "") = true
    · rw [if_pos hd]; rfl
    · rw [if_neg hd]; rfl

theorem processFees_not_fatal (txID : Nat) (s : DBState) (fs : List FeeInput) :
    (processFees txID s fs).isFatal = false := by
  induction fs generalizing s with
  | nil => rfl
  | cons f rest ih =>
      simp only [processFees]
      cases hf : processFee txID s f with
      | ok s' => exact ih s'
      | err m => rfl
      | fatal m =>
          have := processFee_not_fatal txID s f
          rw [hf] at this
          exact absurd this (by simp [Res.isFatal])

theorem processMessage_not_fatal (txID : Nat) {s : DBState} {m : MessageDBWrapper}
    (hm : (m.message.messageType.messageType == "") = false) :
    (processMessage txID s m).isFatal = false := by
  unfold processMessage
  rw [if_neg (by simp [hm])]
  rfl

theorem processMessages_not_fatal {txID : Nat} {s : DBState}
    {ms : List MessageDBWrapper}
    (hall : ms.all (fun m => !(m.message.messageType.messageType == "")) = true) :
    (processMessages txID s ms).isFatal = false := by
  induction ms generalizing s with
  | nil => rfl
  | cons m rest ih =>
      rw [List.all_cons] at hall
      have hm : (m.message.messageType.messageType == "") = false := by
        have := (Bool.and_eq_true _ _).mp hall |>.1
        simpa using this
      have hrest := (Bool.and_eq_true _ _).mp hall |>.2
      simp only [processMessages]
      cases hmm : processMessage txID s m with
      | ok s' => exact ih hrest
      | err msg => rfl
      | fatal msg =>
          have := processMessage_not_fatal txID (s := s) hm
          rw [hmm] at this
          exact absurd this (by simp [Res.isFatal])

theorem processTxAfterFees_not_fatal {txID : Nat} {msgs : List MessageDBWrapper}
    {r : Res DBState}
    (hall : msgs.all (fun m => !(m.message.messageType.messageType == "")) = true)
    (hr : r.isFatal = false) :
    (processTxAfterFees txID msgs r).isFatal = false := by
  cases r with
  | ok s' => exact processMessages_not_fatal hall
  | err m => rfl
  | fatal m => simp [Res.isFatal] at hr

theorem processTx_not_fatal (bid : Nat) {s : DBState} {w : TxDBWrapper}
    (hw : txNoEmptyMsgType w = true) :
    (processTx bid s w).isFatal = false := by
  unfold processTx
  exact processTxAfterFees_not_fatal hw (processFees_not_fatal _ _ _)

theorem processFee_empty_payer {txID : Nat} {s : DBState} {f : FeeInput}
    (hf : (f.payerAddress.address == "") = true) :
    processFee txID s f = .err "fee cannot have empty payer address" := by
  unfold processFee
  rw [if_pos hf]

theorem processFees_not_ok {txID : Nat} {s : DBState} {fs : List FeeInput}
    (hany : fs.any (fun f => f.payerAddress.address == "") = true) :
    (processFees txID s fs).isOk = false := by
  induction fs generalizing s with
  | nil => simp at hany
  | cons f rest ih =>
      rw [List.any_cons] at hany
      simp only [processFees]
      by_cases hf : (f.payerAddress.address == "") = true
      · rw [processFee_empty_payer hf]; rfl
      · have hrest : rest.any (fun f => f.payerAddress.address == "") = true := by
          rcases (Bool.or_eq_true _ _).mp hany with h | h
          · exact absurd h hf
          · exact h
        cases hpf : processFee txID s f with
        | ok s' => exact ih hrest
        | err m => rfl
        | fatal m => rfl

theorem processTxAfterFees_not_ok {txID : Nat} {msgs : List MessageDBWrapper}
    {r : Res DBState} (hr : r.isOk = false) :
    (processTxAfterFees txID msgs r).isOk = false := by
  cases r with
  | ok s' => simp [Res.isOk] at hr
  | err m => rfl
  | fatal m => rfl

theorem processTx_not_ok (bid : Nat) {s : DBState} {w : TxDBWrapper}
    (hw : txHasEmptyPayerFee w = true) :
    (processTx bid s w).isOk = false := by
  unfold processTx
  exact processTxAfterFees_not_ok (processFees_not_ok hw)

theorem processTxs_err (bid : Nat) {s : DBState} {ws : List TxDBWrapper}
    (hany : ws.any txHasEmptyPayerFee = true)
    (hall : ws.all txNoEmptyMsgType = true) :
    ∃ e, processTxs bid s ws = .err e := by
  induction ws generalizing s with
  | nil => simp at hany
  | cons w rest ih =>
      rw [List.any_cons] at hany
      rw [List.all_cons] at hall
      have hwno := (Bool.and_eq_true _ _).mp hall |>.1
      have hrestall := (Bool.and_eq_true _ _).mp hall |>.2
      simp only [processTxs]
      cases hw : processTx bid s w with
      | ok s1 =>
          have hwfee : txHasEmptyPayerFee w = false := by
            cases hcase : txHasEmptyPayerFee w with
            | false => rfl
            | true =>
                have := processTx_not_ok bid (s := s) hcase
                rw [hw] at this
                exact absurd this (by simp [Res.isOk])
          have hrest : rest.any txHasEmptyPayerFee = true := by
            rcases (Bool.or_eq_true _ _).mp hany with h | h
            · rw [hwfee] at h; exact absurd h (by simp)
            · exact h
          exact ih hrest hrestall
      | err m => exact ⟨m, rfl⟩
      | fatal m =>
          have := processTx_not_fatal bid (s := s) hwno
          rw [hw] at this
          exact absurd this (by simp [Res.isFatal])

/-! Scan characterization lemmas. -/

theorem scanAux_some {p : Int → Bool} {lo : Int} {n : Nat} {x : Int}
    (h : ((heightRangeAux lo n).filter p).head? = some x) :
    p x = true ∧ lo ≤ x ∧ x < lo + n ∧ ∀ y, lo ≤ y → y < x → p y = false := by
  induction n generalizing lo with
  | zero => simp [heightRangeAux] at h
  | succ n ih =>
      simp only [heightRangeAux] at h
      cases hp : p lo with
      | true =>
          rw [List.filter_cons_of_pos hp] at h
          have hlx : lo = x := by simpa using h
          subst hlx
          exact ⟨hp, le_refl lo, by omega, fun y h1 h2 => absurd h2 (by omega)⟩
      | false =>
          rw [List.filter_cons_of_neg (by simp [hp])] at h
          obtain ⟨hx1, hx2, hx3, hx4⟩ := ih h
          refine ⟨hx1, by omega, by omega, fun y h1 h2 => ?_⟩
          by_cases hy : y = lo
          · rw [hy]; exact hp
          · exact hx4 y (by omega) h2

theorem scanAux_none {p : Int → Bool} {lo : Int} {n : Nat}
    (h : ((heightRangeAux lo n).filter p).head? = none) :
    ∀ y, lo ≤ y → y < lo + n → p y = false := by
  induction n generalizing lo with
  | zero => intro y h1 h2; omega
  | succ n ih =>
      simp only [heightRangeAux] at h
      cases hp : p lo with
      | true => rw [List.filter_cons_of_pos hp] at h; simp [List.head?] at h
      | false =>
          rw [List.filter_cons_of_neg (by simp [hp])] at h
          intro y h1 h2
          by_cases hy : y = lo
          · rw [hy]; exact hp
          · exact ih h y (by omega) (by omega)

/-- When some height in `[start, effectiveEnd]` is not indexed, the gap
query returns exactly the least such height. -/
theorem gapScan_found (blocks : List BlockRow) (start endH : Int) (cid : Nat)
    (hex : ∃ h, start ≤ h ∧ h ≤ effectiveEnd blocks cid start endH ∧
      isIndexedAt blocks cid h = false) :
    isIndexedAt blocks cid (GetFirstMissingBlockInRange blocks start endH cid) = false ∧
    start ≤ GetFirstMissingBlockInRange blocks start endH cid ∧
    GetFirstMissingBlockInRange blocks start endH cid ≤
      effectiveEnd blocks cid start endH ∧
    ∀ y, start ≤ y → y < GetFirstMissingBlockInRange blocks start endH cid →
      isIndexedAt blocks cid y = true := by
  obtain ⟨hh, hh1, hh2, hh3⟩ := hex
  have hse : start ≤ effectiveEnd blocks cid start endH := le_trans hh1 hh2
  unfold GetFirstMissingBlockInRange
  unfold heightRange
  rw [if_neg (by omega)]
  have hn : ((effectiveEnd blocks cid start endH - start + 1).toNat : Int) =
      effectiveEnd blocks cid start endH - start + 1 := by
    rw [Int.toNat_of_nonneg (by omega)]
  cases hscan : ((heightRangeAux start
      (effectiveEnd blocks cid start endH - start + 1).toNat).filter
      (fun h => !(isIndexedAt blocks cid h))).head? with
  | some x =>
      obtain ⟨hx1, hx2, hx3, hx4⟩ := scanAux_some hscan
      rw [hn] at hx3
      refine ⟨by simpa using hx1, hx2, ?_, fun y h1 h2 => ?_⟩
      · show x ≤ effectiveEnd blocks cid start endH
        omega
      · have h2x : y < x := h2
        have := hx4 y h1 h2x
        simpa using this
  | none =>
      exfalso
      have := scanAux_none hscan hh hh1 (by rw [hn]; omega)
      rw [hh3] at this
      simp at this

/-- When every height of the effective range is indexed (or the range is
empty), the query yields no row and the function falls back to `start`. -/
theorem gapScan_all (blocks : List BlockRow) (start endH : Int) (cid : Nat)
    (hall : ∀ h, start ≤ h → h ≤ effectiveEnd blocks cid start endH →
      isIndexedAt blocks cid h = true) :
    GetFirstMissingBlockInRange blocks start endH cid = start := by
  unfold GetFirstMissingBlockInRange
  unfold heightRange
  by_cases hse : start > effectiveEnd blocks cid start endH
  · rw [if_pos hse]
    rfl
  · rw [if_neg hse]
    have hn : ((effectiveEnd blocks cid start endH - start + 1).toNat : Int) =
        effectiveEnd blocks cid start endH - start + 1 := by
      rw [Int.toNat_of_nonneg (by omega)]
    cases hscan : ((heightRangeAux start
        (effectiveEnd blocks cid start endH - start + 1).toNat).filter
        (fun h => !(isIndexedAt blocks cid h))).head? with
    | some x =>
        exfalso
        obtain ⟨hx1, hx2, hx3, _⟩ := scanAux_some hscan
        rw [hn] at hx3
        have := hall x hx2 (by omega)
        rw [this] at hx1
        simp at hx1
    | none => rfl

/-- Every indexed height for the chain is bounded by
`GetHighestIndexedBlock`. -/
theorem le_getHighestIndexedBlock {blocks : List BlockRow} {cid : Nat}
    {b : BlockRow} (hb : b ∈ blocks) (hcid : (b.blockchainID == cid) = true)
    (hidx : b.indexed = true) : b.height ≤ GetHighestIndexedBlock blocks cid := by
  have hmem : b.height ∈ indexedHeights blocks cid := by
    unfold indexedHeights
    exact List.mem_map_of_mem _ (List.mem_filter.mpr ⟨hb, by simp [hcid, hidx]⟩)
  unfold GetHighestIndexedBlock
  have : ∀ (l : List Int) (x : Int), x ∈ l →
      ∃ m, maxHeight? l = some m ∧ x ≤ m := by
    intro l
    induction l with
    | nil => intro x hx; simp at hx
    | cons a t ih =>
        intro x hx
        rcases List.mem_cons.mp hx with h | h
        · subst h
          cases hm : maxHeight? t with
          | none => exact ⟨x, by simp [maxHeight?, hm], le_refl x⟩
          | some m => exact ⟨max x m, by simp [maxHeight?, hm], le_max_left x m⟩
        · obtain ⟨m, hm, hxm⟩ := ih x h
          cases hm2 : maxHeight? (a :: t) with
          | none => simp [maxHeight?, hm] at hm2
          | some m2 =>
              refine ⟨m2, rfl, ?_⟩
              simp [maxHeight?, hm] at hm2
              omega
  obtain ⟨m, hm, hxm⟩ := this _ _ hmem
  rw [hm]
  exact hxm

/-- One above the highest indexed height is never itself indexed. -/
theorem succ_highest_not_indexed (blocks : List BlockRow) (cid : Nat) :
    isIndexedAt blocks cid (GetHighestIndexedBlock blocks cid + 1) = false := by
  cases hcase : isIndexedAt blocks cid (GetHighestIndexedBlock blocks cid + 1) with
  | false => rfl
  | true =>
      exfalso
      unfold isIndexedAt at hcase
      rw [List.any_eq_true] at hcase
      obtain ⟨b, hb, hprop⟩ := hcase
      have h1 : (b.height == GetHighestIndexedBlock blocks cid + 1) = true := by
        have := (Bool.and_eq_true _ _).mp hprop |>.1
        exact (Bool.and_eq_true _ _).mp this |>.1
      have h2 : (b.blockchainID == cid) = true := by
        have := (Bool.and_eq_true _ _).mp hprop |>.1
        exact (Bool.and_eq_true _ _).mp this |>.2
      have h3 : b.indexed = true := (Bool.and_eq_true _ _).mp hprop |>.2
      have hle := le_getHighestIndexedBlock hb h2 h3
      have heq : b.height = GetHighestIndexedBlock blocks cid + 1 := by
        exact_mod_cast eq_of_beq h1
      omega

theorem OExt.oextRefl (s : OsmoState) : OExt s s :=
  ⟨Extends.refl _, Extends.refl _, Extends.refl _, Extends.refl _⟩

theorem OExt.oextComp {s t u : OsmoState} (h1 : OExt s t) (h2 : OExt t u) : OExt s u :=
  ⟨h1.chains.trans h2.chains, h1.osmoBlocks.trans h2.osmoBlocks,
   h1.addresses.trans h2.addresses, h1.taxableEvents.trans h2.taxableEvents⟩

theorem mem_of_extends {α : Type} {l l' : List α} {a : α}
    (h : Extends l l') (ha : a ∈ l) : a ∈ l' := by
  obtain ⟨t, rfl⟩ := h
  exact List.mem_append_left t ha

theorem firstOrCreate_mem {ρ : Type} [HasRowId ρ] {table : List ρ}
    {p : ρ → Bool} {mk : Nat → ρ} {a : ρ}
    (h : a ∈ (firstOrCreate table p mk).1) : a ∈ table ∨ ∃ n, a = mk n := by
  unfold firstOrCreate at h
  cases hf : table.find? p with
  | some r => rw [hf] at h; exact Or.inl h
  | none =>
      rw [hf] at h
      simp only at h
      rcases List.mem_append.mp h with h1 | h1
      · exact Or.inl h1
      · right
        exact ⟨table.length + 1, by simpa using h1⟩

/-- Each row in the chain table matching a successful fetch-or-create. -/
theorem firstOrCreateChain_spec (s : OsmoState) (chainID name : String) :
    OExt s (firstOrCreateChain s chainID name).1 ∧
    ∃ c ∈ (firstOrCreateChain s chainID name).1.chains,
      c.chainID = chainID ∧ c.name = name := by
  unfold firstOrCreateChain
  constructor
  · exact ⟨firstOrCreate_extends _ _ _, Extends.refl _, Extends.refl _, Extends.refl _⟩
  · obtain ⟨r, hr, _⟩ := firstOrCreate_found s.chains
      (fun x : ChainRow => x.chainID == chainID && x.name == name)
      (fun n => { id := n, chainID := chainID, name := name })
      (by simp) rfl
    have hpq : r.chainID = chainID ∧ r.name = name := by
      simpa using List.find?_some hr
    exact ⟨r, List.mem_of_find?_eq_some hr, hpq.1, hpq.2⟩

theorem firstOrCreateOsmoBlock_spec (s : OsmoState) (height : Int) (cid : Nat) :
    OExt s (firstOrCreateOsmoBlock s height cid).1 ∧
    ∃ b ∈ (firstOrCreateOsmoBlock s height cid).1.osmoBlocks,
      b.height = height ∧ b.chainRowID = cid := by
  unfold firstOrCreateOsmoBlock
  constructor
  · exact ⟨Extends.refl _, firstOrCreate_extends _ _ _, Extends.refl _, Extends.refl _⟩
  · obtain ⟨r, hr, _⟩ := firstOrCreate_found s.osmoBlocks
      (fun x : OsmoBlockRow => x.height == height && x.chainRowID == cid)
      (fun n => { id := n, height := height, chainRowID := cid })
      (by simp) rfl
    have hpq : r.height = height ∧ r.chainRowID = cid := by
      simpa using List.find?_some hr
    exact ⟨r, List.mem_of_find?_eq_some hr, hpq.1, hpq.2⟩

theorem firstOrCreateOsmoAddress_spec (s : OsmoState) (addr : String) :
    OExt s (firstOrCreateOsmoAddress s addr).1 ∧
    ∃ a ∈ (firstOrCreateOsmoAddress s addr).1.addresses, a.address = addr := by
  unfold firstOrCreateOsmoAddress
  constructor
  · exact ⟨Extends.refl _, Extends.refl _, firstOrCreate_extends _ _ _, Extends.refl _⟩
  · obtain ⟨r, hr, _⟩ := firstOrCreate_found s.addresses
      (fun x : AddressRow => x.address == addr)
      (fun n => { id := n, address := addr })
      (by simp) rfl
    have hpq : r.address = addr := by simpa using List.find?_some hr
    exact ⟨r, List.mem_of_find?_eq_some hr, hpq⟩

theorem insertTaxableEvent_spec (s : OsmoState) (e : OsmoTaxableEvent)
    (bid : Nat) (aid : Option Nat) :
    OExt s (insertTaxableEvent s e bid aid) ∧
    ∃ r ∈ (insertTaxableEvent s e bid aid).taxableEvents,
      r.eventHash = e.eventHash ∧ r.amount = e.amount ∧
      r.denomBase = e.denomBase ∧ r.denomSymbol = e.denomSymbol ∧
      r.eventAddressID = aid := by
  unfold insertTaxableEvent
  refine ⟨⟨Extends.refl _, Extends.refl _, Extends.refl _, Extends.append _ _⟩, ?_⟩
  refine ⟨_, List.mem_append_right _ (List.mem_singleton_self _), Eq.refl _, Eq.refl _,
    Eq.refl _, Eq.refl _, Eq.refl _⟩

/-- Successful per-event step: the state only grows, and the event row
plus its chain, block and (when the address is non-empty) address rows are
present afterwards. -/
theorem createOneEvent_ok {s s' : OsmoState} {e : OsmoTaxableEvent}
    (h : createOneEvent s e = .ok s') :
    OExt s s' ∧
    (∃ r ∈ s'.taxableEvents, r.eventHash = e.eventHash ∧ r.amount = e.amount ∧
       r.denomBase = e.denomBase ∧ r.denomSymbol = e.denomSymbol) ∧
    (∃ c ∈ s'.chains, c.chainID = e.chainID ∧ c.name = e.chainName) ∧
    (∃ b ∈ s'.osmoBlocks, b.height = e.blockHeight) ∧
    (e.eventAddress ≠ "" → ∃ a ∈ s'.addresses, a.address = e.eventAddress) := by
  simp only [createOneEvent] at h
  by_cases hd : (e.denomBase == "" || e.denomSymbol == "") = true
  · rw [if_pos hd] at h; exact absurd h (by simp)
  · rw [if_neg hd] at h
    by_cases ha : (e.eventAddress == "") = true
    · rw [if_pos ha] at h
      simp only at h
      have hs : insertTaxableEvent
          (firstOrCreateOsmoBlock (firstOrCreateChain s e.chainID e.chainName).1
            e.blockHeight (firstOrCreateChain s e.chainID e.chainName).2).1 e
          (firstOrCreateOsmoBlock (firstOrCreateChain s e.chainID e.chainName).1
            e.blockHeight (firstOrCreateChain s e.chainID e.chainName).2).2
          none = s' := by
        cases h; rfl
      obtain ⟨hce, ⟨c, hcm, hc1, hc2⟩⟩ := firstOrCreateChain_spec s e.chainID e.chainName
      obtain ⟨hbe, ⟨b, hbm, hb1, hb2⟩⟩ := firstOrCreateOsmoBlock_spec
        (firstOrCreateChain s e.chainID e.chainName).1 e.blockHeight
        (firstOrCreateChain s e.chainID e.chainName).2
      obtain ⟨hie, ⟨r, hrm, hr⟩⟩ := insertTaxableEvent_spec
        (firstOrCreateOsmoBlock (firstOrCreateChain s e.chainID e.chainName).1
          e.blockHeight (firstOrCreateChain s e.chainID e.chainName).2).1 e
        (firstOrCreateOsmoBlock (firstOrCreateChain s e.chainID e.chainName).1
          e.blockHeight (firstOrCreateChain s e.chainID e.chainName).2).2 none
      rw [hs] at hie hrm
      refine ⟨(hce.oextComp hbe).oextComp hie, ⟨r, hrm, hr.1, hr.2.1, hr.2.2.1, hr.2.2.2.1⟩,
        ⟨c, ?_, hc1, hc2⟩, ⟨b, ?_, hb1⟩, fun hne => absurd (eq_of_beq ha) hne⟩
      · exact mem_of_extends (hbe.oextComp hie).chains hcm
      · exact mem_of_extends hie.osmoBlocks hbm
    · rw [if_neg ha] at h
      simp only at h
      have hs : insertTaxableEvent
          (firstOrCreateOsmoAddress
            (firstOrCreateOsmoBlock (firstOrCreateChain s e.chainID e.chainName).1
              e.blockHeight (firstOrCreateChain s e.chainID e.chainName).2).1
            e.eventAddress).1 e
          (firstOrCreateOsmoBlock (firstOrCreateChain s e.chainID e.chainName).1
            e.blockHeight (firstOrCreateChain s e.chainID e.chainName).2).2
          (some (firstOrCreateOsmoAddress
            (firstOrCreateOsmoBlock (firstOrCreateChain s e.chainID e.chainName).1
              e.blockHeight (firstOrCreateChain s e.chainID e.chainName).2).1
            e.eventAddress).2) = s' := by
        cases h; rfl
      obtain ⟨hce, ⟨c, hcm, hc1, hc2⟩⟩ := firstOrCreateChain_spec s e.chainID e.chainName
      obtain ⟨hbe, ⟨b, hbm, hb1, hb2⟩⟩ := firstOrCreateOsmoBlock_spec
        (firstOrCreateChain s e.chainID e.chainName).1 e.blockHeight
        (firstOrCreateChain s e.chainID e.chainName).2
      obtain ⟨hae, ⟨a, ham, ha1⟩⟩ := firstOrCreateOsmoAddress_spec
        (firstOrCreateOsmoBlock (firstOrCreateChain s e.chainID e.chainName).1
          e.blockHeight (firstOrCreateChain s e.chainID e.chainName).2).1
        e.eventAddress
      obtain ⟨hie, ⟨r, hrm, hr⟩⟩ := insertTaxableEvent_spec
        (firstOrCreateOsmoAddress
          (firstOrCreateOsmoBlock (firstOrCreateChain s e.chainID e.chainName).1
            e.blockHeight (firstOrCreateChain s e.chainID e.chainName).2).1
          e.eventAddress).1 e
        (firstOrCreateOsmoBlock (firstOrCreateChain s e.chainID e.chainName).1
          e.blockHeight (firstOrCreateChain s e.chainID e.chainName).2).2
        (some (firstOrCreateOsmoAddress
          (firstOrCreateOsmoBlock (firstOrCreateChain s e.chainID e.chainName).1
            e.blockHeight (firstOrCreateChain s e.chainID e.chainName).2).1
          e.eventAddress).2)
      rw [hs] at hie hrm
      refine ⟨((hce.oextComp hbe).oextComp hae).oextComp hie,
        ⟨r, hrm, hr.1, hr.2.1, hr.2.2.1, hr.2.2.2.1⟩,
        ⟨c, ?_, hc1, hc2⟩, ⟨b, ?_, hb1⟩, fun _ => ⟨a, ?_, ha1⟩⟩
      · exact mem_of_extends ((hbe.oextComp hae).oextComp hie).chains hcm
      · exact mem_of_extends (hae.oextComp hie).osmoBlocks hbm
      · exact mem_of_extends hie.addresses ham

/-- A candidate with an unresolved denomination makes the per-event step
fail. -/
theorem createOneEvent_badDenom {s : OsmoState} {e : OsmoTaxableEvent}
    (hd : e.denomBase = "" ∨ e.denomSymbol = "") :
    createOneEvent s e = .err "denom not cached" := by
  simp only [createOneEvent]
  rw [if_pos ?_]
  rcases hd with h | h <;> simp [h]

theorem createEventsLoop_ok {es : List OsmoTaxableEvent} {s s' : OsmoState}
    (h : createEventsLoop s es = .ok s') :
    OExt s s' ∧ ∀ e ∈ es,
      (∃ r ∈ s'.taxableEvents, r.eventHash = e.eventHash ∧ r.amount = e.amount ∧
         r.denomBase = e.denomBase ∧ r.denomSymbol = e.denomSymbol) ∧
      (∃ c ∈ s'.chains, c.chainID = e.chainID ∧ c.name = e.chainName) ∧
      (∃ b ∈ s'.osmoBlocks, b.height = e.blockHeight) ∧
      (e.eventAddress ≠ "" → ∃ a ∈ s'.addresses, a.address = e.eventAddress) := by
  induction es generalizing s with
  | nil =>
      simp only [createEventsLoop] at h
      cases h
      exact ⟨OExt.oextRefl s', fun e he => absurd he (by simp)⟩
  | cons e rest ih =>
      simp only [createEventsLoop] at h
      cases he : createOneEvent s e with
      | ok s1 =>
          rw [he] at h
          obtain ⟨hx1, hr1, hc1, hb1, ha1⟩ := createOneEvent_ok he
          obtain ⟨hx2, hall⟩ := ih h
          refine ⟨hx1.oextComp hx2, fun e' he' => ?_⟩
          rcases List.mem_cons.mp he' with h1 | h1
          · subst h1
            obtain ⟨r, hrm, hr⟩ := hr1
            obtain ⟨c, hcm, hc⟩ := hc1
            obtain ⟨b, hbm, hb⟩ := hb1
            refine ⟨⟨r, mem_of_extends hx2.taxableEvents hrm, hr⟩,
              ⟨c, mem_of_extends hx2.chains hcm, hc⟩,
              ⟨b, mem_of_extends hx2.osmoBlocks hbm, hb⟩, fun hne => ?_⟩
            obtain ⟨a, ham, ha⟩ := ha1 hne
            exact ⟨a, mem_of_extends hx2.addresses ham, ha⟩
          · exact hall e' h1
      | err m => rw [he] at h; exact absurd h (by simp)
      | fatal m => rw [he] at h; exact absurd h (by simp)

theorem createEventsLoop_badDenom {es : List OsmoTaxableEvent} {e : OsmoTaxableEvent}
    (hmem : e ∈ es) (hd : e.denomBase = "" ∨ e.denomSymbol = "") :
    ∀ s, (createEventsLoop s es).isOk = false := by
  induction es with
  | nil => simp at hmem
  | cons e' rest ih =>
      intro s
      simp only [createEventsLoop]
      rcases List.mem_cons.mp hmem with h1 | h1
      · subst h1
        rw [createOneEvent_badDenom hd]
        rfl
      · cases he : createOneEvent s e' with
        | ok s1 => exact ih h1 s1
        | err m => rfl
        | fatal m => rfl

/-- The loop only ever appends address rows whose address string came from
a non-empty event address. -/
theorem createEventsLoop_addresses {es : List OsmoTaxableEvent} {s s' : OsmoState}
    (h : createEventsLoop s es = .ok s') :
    ∀ r ∈ s'.addresses, r ∈ s.addresses ∨ r.address ≠ "" := by
  induction es generalizing s with
  | nil =>
      simp only [createEventsLoop] at h
      cases h
      exact fun r hr => Or.inl hr
  | cons e rest ih =>
      simp only [createEventsLoop] at h
      cases he : createOneEvent s e with
      | ok s1 =>
          rw [he] at h
          intro r hr
          rcases ih h r hr with h1 | h1
          · -- r was already present after the head step
            simp only [createOneEvent] at he
            by_cases hd : (e.denomBase == "" || e.denomSymbol == "") = true
            · rw [if_pos hd] at he; exact absurd he (by simp)
            · rw [if_neg hd] at he
              by_cases ha : (e.eventAddress == "") = true
              · rw [if_pos ha] at he
                simp only at he
                have haddr : s1.addresses =
                    (firstOrCreateOsmoBlock
                      (firstOrCreateChain s e.chainID e.chainName).1 e.blockHeight
                      (firstOrCreateChain s e.chainID e.chainName).2).1.addresses := by
                  cases he; rfl
                rw [haddr] at h1
                exact Or.inl (by simpa [firstOrCreateOsmoBlock, firstOrCreateChain]
                  using h1)
              · rw [if_neg ha] at he
                simp only at he
                have haddr : s1.addresses =
                    (firstOrCreateOsmoAddress
                      (firstOrCreateOsmoBlock
                        (firstOrCreateChain s e.chainID e.chainName).1 e.blockHeight
                        (firstOrCreateChain s e.chainID e.chainName).2).1
                      e.eventAddress).1.addresses := by
                  cases he; rfl
                rw [haddr] at h1
                simp only [firstOrCreateOsmoAddress] at h1
                rcases firstOrCreate_mem h1 with h2 | ⟨n, h2⟩
                · exact Or.inl (by
                    simpa [firstOrCreateOsmoBlock, firstOrCreateChain] using h2)
                · right
                  rw [h2]
                  simp only
                  intro hcon
                  exact absurd (by simp [hcon] : (e.eventAddress == "") = true)
                    (by simp [ha])
          · exact Or.inr h1
      | err m => rw [he] at h; exact absurd h (by simp)
      | fatal m => rw [he] at h; exact absurd h (by simp)

/-- Batch atomicity: a failing batch leaves the store exactly as it was. -/
theorem createTaxableEvents_rollback (s : OsmoState) (es : List OsmoTaxableEvent)
    (h : (createTaxableEvents s es).2 ≠ DBResult.ok) :
    (createTaxableEvents s es).1 = s := by
  unfold createTaxableEvents at h ⊢
  cases hl : createEventsLoop s es with
  | ok s' => rw [hl] at h; simp at h
  | err m => rfl
  | fatal m => rfl

/-- A successful batch holds a row for every event of the batch, plus the
fetched-or-created chain, block and (non-empty) address rows. -/
theorem createTaxableEvents_ok_inserts (s : OsmoState) (es : List OsmoTaxableEvent)
    (h : (createTaxableEvents s es).2 = DBResult.ok) :
    ∀ e ∈ es,
      (∃ r ∈ (createTaxableEvents s es).1.taxableEvents,
        r.eventHash = e.eventHash ∧ r.amount = e.amount ∧
        r.denomBase = e.denomBase ∧ r.denomSymbol = e.denomSymbol) ∧
      (∃ c ∈ (createTaxableEvents s es).1.chains,
        c.chainID = e.chainID ∧ c.name = e.chainName) ∧
      (∃ b ∈ (createTaxableEvents s es).1.osmoBlocks, b.height = e.blockHeight) ∧
      (e.eventAddress ≠ "" →
        ∃ a ∈ (createTaxableEvents s es).1.addresses, a.address = e.eventAddress) := by
  unfold createTaxableEvents at h ⊢
  cases hl : createEventsLoop s es with
  | ok s' => exact fun e he => (createEventsLoop_ok hl).2 e he
  | err m => rw [hl] at h; simp at h
  | fatal m => rw [hl] at h; simp at h

/-- A batch containing an event with an unresolved denomination fails. -/
theorem createTaxableEvents_badDenom (s : OsmoState) (es : List OsmoTaxableEvent)
    (e : OsmoTaxableEvent) (hmem : e ∈ es)
    (hd : e.denomBase = "" ∨ e.denomSymbol = "") :
    (createTaxableEvents s es).2 ≠ DBResult.ok := by
  unfold createTaxableEvents
  cases hl : createEventsLoop s es with
  | ok s' =>
      have := createEventsLoop_badDenom hmem hd s
      rw [hl] at this
      exact absurd this (by simp [Res.isOk])
  | err m => simp
  | fatal m => simp

/-- Address rows added by a batch always carry a non-empty address. -/
theorem createTaxableEvents_addresses (s : OsmoState) (es : List OsmoTaxableEvent) :
    ∀ r ∈ (createTaxableEvents s es).1.addresses,
      r ∈ s.addresses ∨ r.address ≠ "" := by
  unfold createTaxableEvents
  cases hl : createEventsLoop s es with
  | ok s' => exact createEventsLoop_addresses hl
  | err m => exact fun r hr => Or.inl hr
  | fatal m => exact fun r hr => Or.inl hr

/-- The whole-batch skip: when the first event's hash already exists, the
loop moves to the next batch with the store untouched. -/
theorem rewardsBatchLoop_skip (s : OsmoState) (dbEvents : List OsmoTaxableEvent)
    (i : Nat) (hlt : i < dbEvents.length)
    (hex : eventExists s (dbEvents.get ⟨i, hlt⟩) = true) :
    rewardsBatchLoop s dbEvents i = rewardsBatchLoop s dbEvents (i + 500) := by
  rw [rewardsBatchLoop]
  rw [dif_pos hlt, if_pos hex]

/-- The insert step: a fresh batch is handed to `createTaxableEvents` as
one transaction, and on success the loop continues behind it. -/
theorem rewardsBatchLoop_insert (s s' : OsmoState) (dbEvents : List OsmoTaxableEvent)
    (i : Nat) (hlt : i < dbEvents.length)
    (hex : eventExists s (dbEvents.get ⟨i, hlt⟩) = false)
    (hc : createTaxableEvents s ((dbEvents.drop i).take
      ((if i + 500 > dbEvents.length then dbEvents.length - 1 else i + 500) - i)) =
      (s', DBResult.ok)) :
    rewardsBatchLoop s dbEvents i = rewardsBatchLoop s' dbEvents (i + 500) := by
  rw [rewardsBatchLoop]
  rw [dif_pos hlt,
    if_neg (by rw [List.get_eq_getElem] at hex; simp [hex]), hc]

/-! ## No-success lemma for a block write containing an empty payer fee -/

theorem processTxs_not_ok (bid : Nat) {s : DBState} {ws : List TxDBWrapper}
    (hany : ws.any txHasEmptyPayerFee = true) :
    (processTxs bid s ws).isOk = false := by
  induction ws generalizing s with
  | nil => simp at hany
  | cons w rest ih =>
      rw [List.any_cons] at hany
      simp only [processTxs]
      cases hw : processTx bid s w with
      | ok s1 =>
          have hwf : txHasEmptyPayerFee w = false := by
            cases hc : txHasEmptyPayerFee w with
            | false => rfl
            | true =>
                have := processTx_not_ok bid (s := s) hc
                rw [hw] at this
                exact absurd this (by simp [Res.isOk])
          have hrest : rest.any txHasEmptyPayerFee = true := by
            rcases (Bool.or_eq_true _ _).mp hany with h | h
            · rw [hwf] at h; exact absurd h (by simp)
            · exact h
          exact ih hrest
      | err m => rfl
      | fatal m => rfl

theorem indexNewBlock_emptyPayer_neOk (s0 : DBState) (height time : Int)
    (txs : List TxDBWrapper) (cid : Nat)
    (hany : txs.any txHasEmptyPayerFee = true) :
    (IndexNewBlock s0 height time txs cid).2 ≠ DBResult.ok := by
  unfold IndexNewBlock
  cases hr : runIndexNewBlock s0 height time txs cid with
  | ok s =>
      exfalso
      simp only [runIndexNewBlock] at hr
      have := processTxs_not_ok
        (upsertBlock (deleteFailedBlock s0 height cid) height time cid).2
        (s := (upsertBlock (deleteFailedBlock s0 height cid) height time cid).1) hany
      rw [hr] at this
      exact absurd this (by simp [Res.isOk])
  | err m => simp
  | fatal m => simp

/-! ## Claim theorems -/

/-- C1 (counterexample): a block input inside the claim's scope (it does
contain a fee with an empty payer address) on which `IndexNewBlock` does
not return an error: an earlier message with an empty message-type string
reaches the `config.Log.Fatal` call first, so the write never returns an
error value at all. -/
theorem claim1_counterexample :
    ([cTxBadMsg, cTxBadFee].any txHasEmptyPayerFee = true) ∧
    (IndexNewBlock emptyState 1 0 [cTxBadMsg, cTxBadFee] 1).2 =
      DBResult.fatal "Message type not getting to DB" ∧
    ((IndexNewBlock emptyState 1 0 [cTxBadMsg, cTxBadFee] 1).2).isError = false :=
  ⟨rfl, rfl, rfl⟩

/-- C1 (amended): for every block write in which some transaction carries
a fee with an empty payer address, and no message of the block has an
empty message-type string (that would instead divert into the
process-terminating Fatal path), `IndexNewBlock` returns an error and the
store is exactly the caller's: the enclosing transaction rolls back and no
row of the block persists. -/
theorem claim1_empty_payer_rolls_back (s0 : DBState) (height time : Int)
    (txs : List TxDBWrapper) (cid : Nat)
    (hfee : txs.any txHasEmptyPayerFee = true)
    (hmsg : txs.all txNoEmptyMsgType = true) :
    ∃ e, IndexNewBlock s0 height time txs cid = (s0, DBResult.err e) := by
  obtain ⟨e, he⟩ := processTxs_err
    (upsertBlock (deleteFailedBlock s0 height cid) height time cid).2
    (s := (upsertBlock (deleteFailedBlock s0 height cid) height time cid).1)
    hfee hmsg
  refine ⟨e, ?_⟩
  unfold IndexNewBlock
  have hrun : runIndexNewBlock s0 height time txs cid = .err e := by
    simp only [runIndexNewBlock]
    exact he
  rw [hrun]

theorem claim1_witness :
    ∃ e, IndexNewBlock emptyState 1 0 [cTxBadFee] 1 = (emptyState, DBResult.err e) :=
  claim1_empty_payer_rolls_back emptyState 1 0 [cTxBadFee] 1 rfl rfl

/-- C2: calling `IndexNewBlock` a second time with the identical decoded
input, on the store produced by a successful first call, succeeds and
leaves the store identical — same row counts and contents for Block, Tx,
Address, Fee, Message and TaxableTransaction, no duplicate rows. -/
theorem claim2_idempotent (s0 s1 : DBState) (height time : Int)
    (txs : List TxDBWrapper) (cid : Nat)
    (h : IndexNewBlock s0 height time txs cid = (s1, DBResult.ok)) :
    IndexNewBlock s1 height time txs cid = (s1, DBResult.ok) := by
  unfold IndexNewBlock at h ⊢
  cases hr : runIndexNewBlock s0 height time txs cid with
  | ok s =>
      rw [hr] at h
      simp only at h
      have hs : s = s1 := congrArg Prod.fst h
      subst hs
      rw [runIndexNewBlock_ok hr]
  | err m => rw [hr] at h; simp at h
  | fatal m => rw [hr] at h; simp at h

theorem claim2_witness :
    IndexNewBlock (IndexNewBlock emptyState 100 42 [wTx] 1).1 100 42 [wTx] 1 =
      ((IndexNewBlock emptyState 100 42 [wTx] 1).1, DBResult.ok) :=
  claim2_idempotent emptyState (IndexNewBlock emptyState 100 42 [wTx] 1).1
    100 42 [wTx] 1 rfl

/-- C3 (counterexample): for the single indexed height 5 and range [5,5], the
call returns 5 although height 5 does have an indexed=true row (the
effective range contains no missing height, and the function falls back to
rangeStart) — so it does not always return a height with no indexed=true
row. -/
theorem claim3_counterexample :
    GetFirstMissingBlockInRange c45Blocks 5 5 1 = 5 ∧
    isIndexedAt c45Blocks 1 5 = true :=
  ⟨rfl, rfl⟩

/-- C3 (amended): for indexed heights 1, 2, 4, 5 and range [1,5] the call returns 3;
in general, whenever the effective range [rangeStart, effectiveEnd]
contains a height with no indexed=true row, the call returns the smallest
such height; when every height of the effective range is indexed (or the
range is empty) it falls back to returning rangeStart. -/
theorem claim3_least_missing :
    GetFirstMissingBlockInRange c3Blocks 1 5 1 = 3 ∧
    (∀ (blocks : List BlockRow) (start endH : Int) (cid : Nat),
      (∃ h, start ≤ h ∧ h ≤ effectiveEnd blocks cid start endH ∧
        isIndexedAt blocks cid h = false) →
      isIndexedAt blocks cid (GetFirstMissingBlockInRange blocks start endH cid)
        = false ∧
      start ≤ GetFirstMissingBlockInRange blocks start endH cid ∧
      GetFirstMissingBlockInRange blocks start endH cid ≤
        effectiveEnd blocks cid start endH ∧
      ∀ y, start ≤ y → y < GetFirstMissingBlockInRange blocks start endH cid →
        isIndexedAt blocks cid y = true) ∧
    (∀ (blocks : List BlockRow) (start endH : Int) (cid : Nat),
      (∀ h, start ≤ h → h ≤ effectiveEnd blocks cid start endH →
        isIndexedAt blocks cid h = true) →
      GetFirstMissingBlockInRange blocks start endH cid = start) :=
  ⟨by decide, gapScan_found, gapScan_all⟩

theorem claim3_witness :
    isIndexedAt c3Blocks 1 (GetFirstMissingBlockInRange c3Blocks 1 5 1) = false ∧
    GetFirstMissingBlockInRange c45Blocks 5 5 1 = 5 :=
  ⟨(claim3_least_missing.2.1 c3Blocks 1 5 1
      ⟨3, by decide, by decide, by decide⟩).1,
   claim3_least_missing.2.2 c45Blocks 5 5 1 (by
     intro h h1 h2
     have he : effectiveEnd c45Blocks 1 5 5 = 5 := by decide
     rw [he] at h2
     have hh : h = 5 := le_antisymm h2 h1
     rw [hh]
     decide)⟩

/-- C4 (counterexample): for the single indexed height 5 and range [5,5], the
highest indexed height (5) is ≥ rangeStart, yet the call returns 5 — not 6
as the claim requires: the source only extends the bound when the highest
height is STRICTLY greater than rangeStart. -/
theorem claim4_counterexample :
    GetHighestIndexedBlock c45Blocks 1 = 5 ∧
    GetFirstMissingBlockInRange c45Blocks 5 5 1 = 5 ∧
    GetFirstMissingBlockInRange c45Blocks 5 5 1 ≠ 6 :=
  ⟨rfl, rfl, by decide⟩

/-- C4 (amended): whenever the highest indexed=true height is strictly
greater than rangeStart, the effective upper bound is that height plus
one: the result does not depend on the nominal rangeEnd at all, and it is
the least non-indexed height in [rangeStart, highest+1] (which always
exists, since highest+1 is never indexed).  When the highest height merely
equals rangeStart the nominal rangeEnd is kept, so for the single indexed
height 5 and range [5,5] the call returns 5. -/
theorem claim4_strict_extension (blocks : List BlockRow) (start endH : Int)
    (cid : Nat) (hgt : GetHighestIndexedBlock blocks cid > start) :
    (∀ endH', GetFirstMissingBlockInRange blocks start endH' cid =
      GetFirstMissingBlockInRange blocks start endH cid) ∧
    isIndexedAt blocks cid (GetFirstMissingBlockInRange blocks start endH cid)
      = false ∧
    start ≤ GetFirstMissingBlockInRange blocks start endH cid ∧
    GetFirstMissingBlockInRange blocks start endH cid ≤
      GetHighestIndexedBlock blocks cid + 1 ∧
    (∀ y, start ≤ y → y < GetFirstMissingBlockInRange blocks start endH cid →
      isIndexedAt blocks cid y = true) := by
  have heq : ∀ e, effectiveEnd blocks cid start e =
      GetHighestIndexedBlock blocks cid + 1 := by
    intro e
    unfold effectiveEnd
    rw [if_pos hgt]
  have hex : ∃ h, start ≤ h ∧ h ≤ effectiveEnd blocks cid start endH ∧
      isIndexedAt blocks cid h = false :=
    ⟨GetHighestIndexedBlock blocks cid + 1, by omega, by rw [heq],
     succ_highest_not_indexed blocks cid⟩
  obtain ⟨ha, hb, hc, hd⟩ := gapScan_found blocks start endH cid hex
  refine ⟨?_, ha, hb, by rw [heq] at hc; exact hc, hd⟩
  intro endH'
  unfold GetFirstMissingBlockInRange
  rw [heq endH', heq endH]

theorem claim4_witness :
    GetFirstMissingBlockInRange c45Blocks 4 0 1 =
      GetFirstMissingBlockInRange c45Blocks 4 4 1 ∧
    isIndexedAt c45Blocks 1 (GetFirstMissingBlockInRange c45Blocks 4 4 1) = false :=
  ⟨(claim4_strict_extension c45Blocks 4 4 1 (by decide)).1 0,
   (claim4_strict_extension c45Blocks 4 4 1 (by decide)).2.1⟩

/-- C5 (code bug evaluation): a block whose only message carries an empty
message-type string drives `IndexNewBlock` into the `config.Log.Fatal`
path — a process-terminating outcome, not an error returned to the
caller. -/
theorem claim5_empty_msgtype_fatal :
    (IndexNewBlock emptyState 1 0 [cTxBadMsg] 1).2 =
      DBResult.fatal "Message type not getting to DB" ∧
    ((IndexNewBlock emptyState 1 0 [cTxBadMsg] 1).2).isError = false :=
  ⟨rfl, rfl⟩

/-- C6 (code bug evaluation): the final-batch clamp `batchEnd = len-1`
drops the last sorted candidate.  With a single reward candidate, whose
denomination is resolved and which batch insertion would happily store
(second and third conjuncts), the batch loop hands the empty slice [0:0]
to insertion and finishes "successfully" with the candidate never
stored. -/
theorem claim6_last_event_dropped :
    indexOsmoRewardsBatches emptyOsmoState [wEv] = (emptyOsmoState, DBResult.ok) ∧
    (createTaxableEvents emptyOsmoState [wEv]).2 = DBResult.ok ∧
    (createTaxableEvents emptyOsmoState [wEv]).1.taxableEvents ≠ [] := by
  refine ⟨?_, rfl, by decide⟩
  show rewardsBatchLoop emptyOsmoState (sortByHash [wEv]) 0 =
    (emptyOsmoState, DBResult.ok)
  have hsort : sortByHash [wEv] = [wEv] := rfl
  rw [hsort]
  rw [rewardsBatchLoop]
  rw [dif_pos (by decide : 0 < [wEv].length)]
  rw [if_neg (by decide)]
  have hslice : createTaxableEvents emptyOsmoState
      (([wEv].drop 0).take
        ((if 0 + 500 > [wEv].length then [wEv].length - 1 else 0 + 500) - 0)) =
      (emptyOsmoState, DBResult.ok) := rfl
  rw [hslice]
  show rewardsBatchLoop emptyOsmoState [wEv] (0 + 500) =
    (emptyOsmoState, DBResult.ok)
  rw [rewardsBatchLoop]
  rw [dif_neg (by decide)]

/-- C7: batch processing of reward candidates: (1) a batch whose first
event's hash already exists is skipped whole, with the store untouched,
and processing moves to the next batch; (2) a fresh batch is handed to
`createTaxableEvents` as one transaction and on success the loop continues
after it; (3) a failing batch leaves the store unchanged (transaction
rollback); (4) a successful batch stores a row for every event of the
batch, with Chain, Block and (non-empty) Address rows fetched-or-created;
(5) an event whose denomination is not resolved (empty base or symbol)
makes its whole batch fail. -/
theorem claim7_batch_semantics :
    (∀ (s : OsmoState) (dbEvents : List OsmoTaxableEvent) (i : Nat)
       (hlt : i < dbEvents.length),
       eventExists s (dbEvents.get ⟨i, hlt⟩) = true →
       rewardsBatchLoop s dbEvents i = rewardsBatchLoop s dbEvents (i + 500)) ∧
    (∀ (s s' : OsmoState) (dbEvents : List OsmoTaxableEvent) (i : Nat)
       (hlt : i < dbEvents.length),
       eventExists s (dbEvents.get ⟨i, hlt⟩) = false →
       createTaxableEvents s ((dbEvents.drop i).take
         ((if i + 500 > dbEvents.length then dbEvents.length - 1 else i + 500) - i))
         = (s', DBResult.ok) →
       rewardsBatchLoop s dbEvents i = rewardsBatchLoop s' dbEvents (i + 500)) ∧
    (∀ (s : OsmoState) (es : List OsmoTaxableEvent),
       (createTaxableEvents s es).2 ≠ DBResult.ok →
       (createTaxableEvents s es).1 = s) ∧
    (∀ (s : OsmoState) (es : List OsmoTaxableEvent),
       (createTaxableEvents s es).2 = DBResult.ok → ∀ e ∈ es,
         (∃ r ∈ (createTaxableEvents s es).1.taxableEvents,
           r.eventHash = e.eventHash ∧ r.amount = e.amount ∧
           r.denomBase = e.denomBase ∧ r.denomSymbol = e.denomSymbol) ∧
         (∃ c ∈ (createTaxableEvents s es).1.chains,
           c.chainID = e.chainID ∧ c.name = e.chainName) ∧
         (∃ b ∈ (createTaxableEvents s es).1.osmoBlocks,
           b.height = e.blockHeight) ∧
         (e.eventAddress ≠ "" →
           ∃ a ∈ (createTaxableEvents s es).1.addresses,
             a.address = e.eventAddress)) ∧
    (∀ (s : OsmoState) (es : List OsmoTaxableEvent) (e : OsmoTaxableEvent),
       e ∈ es → (e.denomBase = "" ∨ e.denomSymbol = "") →
       (createTaxableEvents s es).2 ≠ DBResult.ok) :=
  ⟨rewardsBatchLoop_skip, rewardsBatchLoop_insert, createTaxableEvents_rollback,
   createTaxableEvents_ok_inserts, createTaxableEvents_badDenom⟩

theorem claim7_witness :
    (rewardsBatchLoop osmoSkipState [wEv] 0 =
      rewardsBatchLoop osmoSkipState [wEv] 500) ∧
    (rewardsBatchLoop emptyOsmoState [wEv, wEvNoAddr] 0 =
      rewardsBatchLoop (createTaxableEvents emptyOsmoState [wEv]).1
        [wEv, wEvNoAddr] 500) ∧
    ((createTaxableEvents emptyOsmoState [wEvBadDenom]).1 = emptyOsmoState) ∧
    (∃ r ∈ (createTaxableEvents emptyOsmoState [wEv]).1.taxableEvents,
      r.eventHash = wEv.eventHash ∧ r.amount = wEv.amount ∧
      r.denomBase = wEv.denomBase ∧ r.denomSymbol = wEv.denomSymbol) ∧
    ((createTaxableEvents emptyOsmoState [wEvBadDenom]).2 ≠ DBResult.ok) :=
  ⟨claim7_batch_semantics.1 osmoSkipState [wEv] 0 (by decide) (by decide),
   claim7_batch_semantics.2.1 emptyOsmoState
     (createTaxableEvents emptyOsmoState [wEv]).1 [wEv, wEvNoAddr] 0
     (by decide) (by decide) rfl,
   claim7_batch_semantics.2.2.1 emptyOsmoState [wEvBadDenom] (by decide),
   (claim7_batch_semantics.2.2.2.1 emptyOsmoState [wEv] rfl wEv
     (List.mem_singleton_self _)).1,
   claim7_batch_semantics.2.2.2.2 emptyOsmoState [wEvBadDenom] wEvBadDenom
     (List.mem_singleton_self _) (Or.inl rfl)⟩

/-- C8 (counterexample): a 200 response whose body fails to decode still
comes back from `GetBlockByHeight` with a nil error and the zero-value
result — the source drops the `json.Unmarshal` error in that one
operation, so not all three operations surface a decode error. -/
theorem claim8_counterexample :
    cUnmarshalFail cResp.body = none ∧
    cResp.statusCode = 200 ∧
    GetBlockByHeight 0 cUnmarshalFail "/blocks/7" cResp = Except.ok 0 ∧
    isErrorResult (GetBlockByHeight 0 cUnmarshalFail "/blocks/7" cResp) = false :=
  ⟨rfl, rfl, rfl, rfl⟩

/-- C8 (amended): on a success-status response whose body does not decode,
`GetTxsByBlockHeight` and `GetLatestBlock` return a decode error to the
caller; `GetBlockByHeight` ignores the unmarshal failure and returns
success with the zero-value result. -/
theorem claim8_decode_errors :
    (∀ (β α : Type) (unmarshal : β → Option α) (endpoint : String)
       (resp : HttpResponse β), resp.statusCode = 200 →
       unmarshal resp.body = none →
       GetTxsByBlockHeight unmarshal endpoint resp =
         Except.error ClientError.decodeError) ∧
    (∀ (β α : Type) (unmarshal : β → Option α) (endpoint : String)
       (resp : HttpResponse β), resp.statusCode = 200 →
       unmarshal resp.body = none →
       GetLatestBlock unmarshal endpoint resp =
         Except.error ClientError.decodeError) ∧
    (∀ (β α : Type) (zero : α) (unmarshal : β → Option α) (endpoint : String)
       (resp : HttpResponse β), resp.statusCode = 200 →
       unmarshal resp.body = none →
       GetBlockByHeight zero unmarshal endpoint resp = Except.ok zero) := by
  refine ⟨?_, ?_, ?_⟩
  · intro β α unmarshal endpoint resp h200 hdec
    unfold GetTxsByBlockHeight checkResponseErrorCode
    rw [h200, if_neg (by simp), hdec]
  · intro β α unmarshal endpoint resp h200 hdec
    unfold GetLatestBlock checkResponseErrorCode
    rw [h200, if_neg (by simp), hdec]
  · intro β α zero unmarshal endpoint resp h200 hdec
    unfold GetBlockByHeight checkResponseErrorCode
    rw [h200, if_neg (by simp), hdec]

theorem claim8_witness :
    GetTxsByBlockHeight cUnmarshalFail "/txs" cResp =
      Except.error ClientError.decodeError ∧
    GetLatestBlock cUnmarshalFail "/blocks/latest" cResp =
      Except.error ClientError.decodeError ∧
    GetBlockByHeight 0 cUnmarshalFail "/blocks/7" cResp = Except.ok 0 :=
  ⟨claim8_decode_errors.1 String Nat cUnmarshalFail "/txs" cResp rfl rfl,
   claim8_decode_errors.2.1 String Nat cUnmarshalFail "/blocks/latest" cResp rfl rfl,
   claim8_decode_errors.2.2 String Nat 0 cUnmarshalFail "/blocks/7" cResp rfl rfl⟩

/-- C9: after a successful `IndexNewBlock` for (height, chain) no
FailedBlock row for that pair remains in the store; and the deletion lives
inside the same all-or-nothing transaction: any non-ok outcome leaves the
store (including the failed-block worklist) exactly as before the call. -/
theorem claim9_failed_block_cleared (s0 : DBState) (height time : Int)
    (txs : List TxDBWrapper) (cid : Nat) :
    ((IndexNewBlock s0 height time txs cid).2 = DBResult.ok →
      hasFailedBlock (IndexNewBlock s0 height time txs cid).1 height cid = false) ∧
    ((IndexNewBlock s0 height time txs cid).2 ≠ DBResult.ok →
      (IndexNewBlock s0 height time txs cid).1 = s0) := by
  unfold IndexNewBlock
  cases hr : runIndexNewBlock s0 height time txs cid with
  | ok s =>
      constructor
      · intro _
        simp only [runIndexNewBlock] at hr
        obtain ⟨hext, _⟩ := processTxs_ok hr
        have hfb : s.failedBlocks =
            s0.failedBlocks.filter (fun p => !(p.1 == height && p.2 == cid)) := by
          rw [← hext.failed, upsertBlock_failed]
          rfl
        show hasFailedBlock s height cid = false
        unfold hasFailedBlock
        rw [hfb]
        exact any_filter_not _ _
      · intro hne
        exact absurd rfl hne
  | err m => exact ⟨fun hc => absurd hc (by simp), fun _ => rfl⟩
  | fatal m => exact ⟨fun hc => absurd hc (by simp), fun _ => rfl⟩

theorem claim9_witness :
    hasFailedBlock (IndexNewBlock w9State 100 42 [] 1).1 100 1 = false ∧
    (IndexNewBlock w9State 1 0 [cTxBadFee] 1).1 = w9State :=
  ⟨(claim9_failed_block_cleared w9State 100 42 [] 1).1 rfl,
   (claim9_failed_block_cleared w9State 1 0 [cTxBadFee] 1).2 (by decide)⟩

/-- C10: a TaxableEvent candidate with an empty event address: batch
insertion succeeds without creating any Address row for it (the store's
address table is untouched for a singleton batch, and in general every
address row a batch adds has a non-empty address), and the event row is
still written, with no event-address relation.  A fee's payer address is
different: a block write containing a fee with an empty payer address
never succeeds. -/
theorem claim10_empty_event_address (s : OsmoState) (e : OsmoTaxableEvent)
    (haddr : e.eventAddress = "")
    (hdenom : e.denomBase ≠ "" ∧ e.denomSymbol ≠ "") :
    (createTaxableEvents s [e]).2 = DBResult.ok ∧
    (createTaxableEvents s [e]).1.addresses = s.addresses ∧
    (∃ r ∈ (createTaxableEvents s [e]).1.taxableEvents,
      r.eventHash = e.eventHash ∧ r.eventAddressID = none) ∧
    (∀ (s' : OsmoState) (es : List OsmoTaxableEvent),
      ∀ r ∈ (createTaxableEvents s' es).1.addresses,
        r ∈ s'.addresses ∨ r.address ≠ "") ∧
    (∀ (ds : DBState) (ht tm : Int) (cid : Nat) (tw : TxDBWrapper),
      txHasEmptyPayerFee tw = true →
      (IndexNewBlock ds ht tm [tw] cid).2 ≠ DBResult.ok) := by
  have h1 : createOneEvent s e = .ok (insertTaxableEvent
      (firstOrCreateOsmoBlock (firstOrCreateChain s e.chainID e.chainName).1
        e.blockHeight (firstOrCreateChain s e.chainID e.chainName).2).1 e
      (firstOrCreateOsmoBlock (firstOrCreateChain s e.chainID e.chainName).1
        e.blockHeight (firstOrCreateChain s e.chainID e.chainName).2).2
      none) := by
    simp only [createOneEvent]
    rw [if_neg (by simp [hdenom.1, hdenom.2]), if_pos (by simp [haddr])]
  have h2 : createTaxableEvents s [e] = (insertTaxableEvent
      (firstOrCreateOsmoBlock (firstOrCreateChain s e.chainID e.chainName).1
        e.blockHeight (firstOrCreateChain s e.chainID e.chainName).2).1 e
      (firstOrCreateOsmoBlock (firstOrCreateChain s e.chainID e.chainName).1
        e.blockHeight (firstOrCreateChain s e.chainID e.chainName).2).2
      none, DBResult.ok) := by
    unfold createTaxableEvents
    simp only [createEventsLoop]
    rw [h1]
  refine ⟨by rw [h2], by rw [h2]; rfl, ?_, ?_, ?_⟩
  · rw [h2]
    exact ⟨_, List.mem_append_right _ (List.mem_singleton_self _), rfl, rfl⟩
  · exact fun s' es => createTaxableEvents_addresses s' es
  · intro ds ht tm cid tw hfee
    exact indexNewBlock_emptyPayer_neOk ds ht tm [tw] cid (by simp [hfee])

theorem claim10_witness :
    (createTaxableEvents emptyOsmoState [wEvNoAddr]).2 = DBResult.ok ∧
    (createTaxableEvents emptyOsmoState [wEvNoAddr]).1.addresses =
      emptyOsmoState.addresses :=
  ⟨(claim10_empty_event_address emptyOsmoState wEvNoAddr rfl
      ⟨by decide, by decide⟩).1,
   (claim10_empty_event_address emptyOsmoState wEvNoAddr rfl
      ⟨by decide, by decide⟩).2.1⟩

end CosmosTax
